import Mathlib

/-!
DcatWriter (geoportal-search, `gs/writer/DcatWriter.js`).

A shallow embedding of the DCAT writer: `DCAT_DEFAULTS`, `selectFalidDate`,
`writeEntry` and `writeItems`, and theorems about them.

Conventions of the embedding.

* `JsVal` is the JavaScript value of a field that the writer only tests for
  truthiness and copies (identifier, title, dates, keyword list, file id,
  link attributes).
* `Ref α` is a field the writer dereferences (`json`, `json._source`,
  `json.links`, `searchResult.items`, one element of `links`): absent
  (`undefined`), `null`, or an object of type `α`.
* The host functions the writer calls but does not define are parameters:
  `Date.parse` (`parse`), the clock read by `new Date()` (`now`, `clock`),
  `task.target.itemToJson`, `task.val.nowAsString` and
  `searchResult.calcNextRecord`.
* A time value is an `Int`, milliseconds since the epoch; the result of
  `Date.parse` is `none` for `NaN`.
* An exception is the `error` case of `Except JsError`.
-/

namespace DcatWriter

/-! ## JavaScript values -/

/-- A JavaScript value held by a field of an item projection. Numbers are the
integer-valued ones and `NaN`. -/
inductive JsVal where
  | undefined : JsVal
  | null : JsVal
  | bool (b : Bool) : JsVal
  | num (n : Int) : JsVal
  | nan : JsVal
  | str (s : String) : JsVal
  | arr (elems : List JsVal) : JsVal
  | obj (props : List (String × JsVal)) : JsVal

/-- The exceptions the writer can raise. -/
inductive JsError where
  | typeError : JsError
  | rangeError : JsError
  deriving DecidableEq

/-- ToBoolean: `undefined`, `null`, `false`, `0`, `NaN` and `""` are falsy,
every other value (every array and object included) is truthy. -/
def truthy : JsVal → Bool
  | .undefined => false
  | .null => false
  | .bool b => b
  | .num n => n != 0
  | .nan => false
  | .str s => s != ""
  | .arr _ => true
  | .obj _ => true

/-- The expression `a || b` on values. -/
def JsVal.or (a b : JsVal) : JsVal :=
  if truthy a then a else b

/-- A field that the writer dereferences: absent, `null`, or an object. -/
inductive Ref (α : Type) where
  | undefined : Ref α
  | null : Ref α
  | obj (a : α) : Ref α

/-- The expression `r || dflt` where `dflt` is an object: every object is
truthy, `undefined` and `null` are falsy. -/
def Ref.orElse {α : Type} (r : Ref α) (dflt : α) : α :=
  match r with
  | .obj a => a
  | .undefined => dflt
  | .null => dflt

/-! ## Dates -/

/-- Milliseconds in a day. -/
def msPerDay : Int := 86400000

/-- The decimal digit character of `n % 10`. -/
def digitChar (n : Nat) : Char :=
  match n % 10 with
  | 0 => '0' | 1 => '1' | 2 => '2' | 3 => '3' | 4 => '4'
  | 5 => '5' | 6 => '6' | 7 => '7' | 8 => '8' | _ => '9'

/-- The last `w` decimal digits of `n`, zero padded. -/
def padDigits : Nat → Nat → List Char
  | 0, _ => []
  | w + 1, n => padDigits w (n / 10) ++ [digitChar n]

/-- Year, month (1..12) and day of month (1..31) of a day number counted from
1970-01-01 in the proleptic Gregorian calendar. -/
def civilFromDays (days : Int) : Int × Nat × Nat :=
  let z := days + 719468
  let era := z / 146097
  let doe := (z - era * 146097).toNat
  let yoe := (doe - doe / 1460 + doe / 36524 - doe / 146096) / 365
  let doy := doe - (365 * yoe + yoe / 4 - yoe / 100)
  let mp := (5 * doy + 2) / 153
  let d := doy - (153 * mp + 2) / 5 + 1
  let m := if mp < 10 then mp + 3 else mp - 9
  let y := (yoe : Int) + era * 400
  (if m ≤ 2 then y + 1 else y, m, d)

/-- The year part of the ISO format: four digits for the years 0 to 9999, a sign
and six digits otherwise. -/
def isoYear (y : Int) : List Char :=
  if 0 ≤ y ∧ y ≤ 9999 then padDigits 4 y.toNat
  else if 0 ≤ y then '+' :: padDigits 6 y.toNat
  else '-' :: padDigits 6 (-y).toNat

/-- The text `Date.prototype.toISOString` gives for a valid time value:
`YYYY-MM-DDTHH:mm:ss.sssZ`. -/
def isoString (t : Int) : String :=
  let (y, m, d) := civilFromDays (t / msPerDay)
  let ms := (t % msPerDay).toNat
  String.mk (isoYear y ++ '-' :: padDigits 2 m ++ '-' :: padDigits 2 d
    ++ 'T' :: padDigits 2 (ms / 3600000) ++ ':' :: padDigits 2 (ms / 60000 % 60)
    ++ ':' :: padDigits 2 (ms / 1000 % 60) ++ '.' :: padDigits 3 (ms % 1000) ++ ['Z'])

/-- A `Date` object: its time value, `none` for an invalid date. -/
structure JsDate where
  time : Option Int

/-- The expression `new Date(d)` for a number `d`. -/
def newDate (d : Option Int) : JsDate := ⟨d⟩

/-- The method `Date.prototype.toISOString`: a `RangeError` on an invalid date. -/
def JsDate.toISOString (d : JsDate) : Except JsError String :=
  match d.time with
  | none => .error .rangeError
  | some t => .ok (isoString t)

/-- ToBoolean of a number, the `!!d` of `selectFalidDate`: `NaN` and `0` are
falsy. -/
def numTruthy : Option Int → Bool
  | none => false
  | some t => t != 0

/-- The function `selectFalidDate(arguments...)` (DcatWriter.js, lines 30-38):
parse every argument, keep the truthy results, and give the ISO text of the
first one, or `null` when none is left. -/
def selectFalidDate (parse : JsVal → Option Int) (arguments : List JsVal) :
    Except JsError JsVal :=
  let validDates := (((arguments.map parse).filter numTruthy).map newDate)
  match validDates with
  | [] => .ok .null
  | d :: _ => do
    let s ← d.toISOString
    pure (.str s)

/-! ## A reference `Date.parse`

The theorems below hold for every `parse`. This one recognises the two
date-time string formats `YYYY-MM-DD` and `YYYY-MM-DDTHH:mm:ss[.sss]Z` and
nothing else; it is the parser at which concrete examples are evaluated. -/

/-- The value of a decimal digit character. -/
def digitVal (c : Char) : Option Nat :=
  if '0' ≤ c ∧ c ≤ '9' then some (c.toNat - 48) else none

/-- The number written by a list of decimal digits. -/
def digitsVal (cs : List Char) : Option Nat :=
  cs.foldl (fun acc c => do
    let a ← acc
    let v ← digitVal c
    pure (a * 10 + v)) (some 0)

/-- Days in month `m` of year `y`. -/
def daysInMonth (y m : Nat) : Nat :=
  if m = 2 then (if (y % 4 = 0 ∧ y % 100 ≠ 0) ∨ y % 400 = 0 then 29 else 28)
  else if m = 4 ∨ m = 6 ∨ m = 9 ∨ m = 11 then 30 else 31

/-- The day number, counted from 1970-01-01, of a date of the years 0 to 9999. -/
def daysFromCivil (y m d : Nat) : Int :=
  let y1 : Int := if m ≤ 2 then (y : Int) - 1 else y
  let era := y1 / 400
  let yoe := (y1 - era * 400).toNat
  let doy := (153 * (if 2 < m then m - 3 else m + 9) + 2) / 5 + d - 1
  let doe := yoe * 365 + yoe / 4 - yoe / 100 + doy
  era * 146097 + (doe : Int) - 719468

/-- The date part `YYYY-MM-DD`: its day number. -/
def parseDatePart (cs : List Char) : Option Int :=
  match cs with
  | [y1, y2, y3, y4, '-', m1, m2, '-', d1, d2] => do
    let y ← digitsVal [y1, y2, y3, y4]
    let m ← digitsVal [m1, m2]
    let d ← digitsVal [d1, d2]
    if 1 ≤ m ∧ m ≤ 12 ∧ 1 ≤ d ∧ d ≤ daysInMonth y m then
      pure (daysFromCivil y m d)
    else none
  | _ => none

/-- The time part `HH:mm:ss[.sss]Z`: its milliseconds in the day. -/
def parseTimePart (cs : List Char) : Option Int :=
  let hms (h1 h2 n1 n2 s1 s2 : Char) (frac : List Char) : Option Int := do
    let h ← digitsVal [h1, h2]
    let n ← digitsVal [n1, n2]
    let s ← digitsVal [s1, s2]
    let f ← digitsVal frac
    if h ≤ 23 ∧ n ≤ 59 ∧ s ≤ 59 then
      pure (((h * 3600000 + n * 60000 + s * 1000 + f : Nat) : Int))
    else none
  match cs with
  | [h1, h2, ':', n1, n2, ':', s1, s2, 'Z'] => hms h1 h2 n1 n2 s1 s2 []
  | [h1, h2, ':', n1, n2, ':', s1, s2, '.', f1, f2, f3, 'Z'] =>
    hms h1 h2 n1 n2 s1 s2 [f1, f2, f3]
  | _ => none

/-- The reference parser: the time value of a recognised date-time string,
`NaN` for every other value. -/
def isoDateParse : JsVal → Option Int
  | .str s =>
    let cs := s.toList
    match cs.drop 10 with
    | [] => do
      let days ← parseDatePart cs
      pure (days * msPerDay)
    | 'T' :: rest => do
      let days ← parseDatePart (cs.take 10)
      let ms ← parseTimePart rest
      pure (days * msPerDay + ms)
    | _ => none
  | _ => none

/-! ## The data model -/

/-- One element of `json.links`: the two attributes the writer reads. -/
structure Link where
  type : JsVal
  href : JsVal

/-- The bag `json._source`: the two engine-specific fields the writer reads. -/
structure Source where
  keywords_s : JsVal
  fileid : JsVal

/-- The item projection `json` returned by `itemToJson`. An absent field is
`undefined`. An element of `links` may itself be `undefined` or `null`. -/
structure Json where
  id : JsVal
  title : JsVal
  description : JsVal
  updated : JsVal
  published : JsVal
  _source : Ref Source
  links : Ref (List (Ref Link))

/-- The object literal `{}` used for a missing projection. -/
def emptyJson : Json :=
  { id := .undefined, title := .undefined, description := .undefined,
    updated := .undefined, published := .undefined,
    _source := .undefined, links := .undefined }

/-- The object literal `{}` used for a missing `_source`. -/
def emptySource : Source :=
  { keywords_s := .undefined, fileid := .undefined }

/-- The publisher record of the defaults. -/
structure Publisher where
  type : String
  name : String
  deriving DecidableEq

/-- The shape of `DCAT_DEFAULTS`. -/
structure DcatDefaults where
  accessLevel : String
  license : String
  bureauCode : List String
  programCode : List String
  publisher : Publisher
  keyword : JsVal

/-- The constant `DCAT_DEFAULTS` (DcatWriter.js, lines 18-28). -/
def DCAT_DEFAULTS : DcatDefaults :=
  { accessLevel := "public",
    license := "http://www.usa.gov/publicdomain/label/1.0/",
    bureauCode := ["010:04"],
    programCode := ["010:000"],
    publisher := { type := "org:Organization", name := "Your Publisher" },
    keyword := .arr [.str "metadata"] }

/-- An element of `dcat.distribution`: the record pushed for the file
identifier, or the record pushed for a link. `type` is the key `@type`. -/
inductive Distribution where
  | download (type : String) (downloadURL : JsVal) : Distribution
  | access (type : String) (mediaType : JsVal) (accessURL : JsVal) : Distribution

/-- The dataset record `dcat` built by `writeEntry`. `type` is the key `@type`. -/
structure Dcat where
  identifier : JsVal
  title : JsVal
  description : JsVal
  modified : JsVal
  keyword : JsVal
  distribution : List Distribution
  type : String
  license : String
  accessLevel : String
  bureauCode : List String
  programCode : List String
  publisher : Publisher

/-- The collaborators reached through `task`: `task.target.itemToJson(task, item)`
and `task.val.nowAsString()`. -/
structure Task (Item : Type) where
  itemToJson : Item → Ref Json
  nowAsString : String

/-- The `options` object that `writeItems` hands to `writeEntry`. -/
structure Options where
  now : String
  entryOnly : Bool

/-- The search result read by `writeItems`. `itemsPerPage` is a number or
absent (`none`); `calcNextRecord` is the value `searchResult.calcNextRecord(task)`
returns. -/
structure SearchResult (Item : Type) where
  items : Ref (List Item)
  itemsPerPage : Option Int
  startIndex : JsVal
  totalHits : JsVal
  calcNextRecord : JsVal

/-- The catalog envelope `response` handed to `writeResponse`. `context` and
`type` are the keys `@context` and `@type`. -/
structure Response where
  conformsTo : String
  describedBy : String
  context : String
  type : String
  start : JsVal
  num : Nat
  total : JsVal
  nextStart : JsVal
  dataset : List Dcat

/-! ## The writer -/

/-- The loop of `writeEntry` over `json.links` (lines 71-78): one record is
pushed per link; reading `link.type` of an `undefined` or `null` element is a
`TypeError`. -/
def pushLinks : List (Ref Link) → List Distribution → Except JsError (List Distribution)
  | [], distribution => .ok distribution
  | .obj link :: rest, distribution =>
    pushLinks rest (distribution ++ [.access "dcat:Distribution" link.type link.href])
  | .undefined :: _, _ => .error .typeError
  | .null :: _, _ => .error .typeError

/-- The method `writeEntry(task, results, item, options)` (lines 43-82). `now`
is the time value the clock gives to `new Date()` in this call. The result is
the `results` array after the call. -/
def writeEntry {Item : Type} (parse : JsVal → Option Int) (now : Int)
    (task : Task Item) (results : List Dcat) (item : Item) (_options : Options) :
    Except JsError (List Dcat) := do
  let json := (task.itemToJson item).orElse emptyJson
  let src := json._source.orElse emptySource
  let selected ← selectFalidDate parse [json.updated, json.published]
  let modified ←
    if truthy selected then pure selected
    else do
      let s ← (newDate (some now)).toISOString
      pure (JsVal.str s)
  let dcat : Dcat :=
    { identifier := json.id,
      title := json.title.or (.str "<unknown>"),
      description := json.description.or (.str "<unknown>"),
      modified := modified,
      keyword := src.keywords_s.or DCAT_DEFAULTS.keyword,
      distribution := [],
      type := "dcat:Dataset",
      license := DCAT_DEFAULTS.license,
      accessLevel := DCAT_DEFAULTS.accessLevel,
      bureauCode := DCAT_DEFAULTS.bureauCode,
      programCode := DCAT_DEFAULTS.programCode,
      publisher := DCAT_DEFAULTS.publisher }
  let dcat : Dcat :=
    if truthy src.fileid then
      { dcat with distribution :=
          dcat.distribution ++ [.download "dcat:Distribution" src.fileid] }
    else dcat
  let dcat : Dcat ←
    match json.links with
    | .obj links => do
      let distribution ← pushLinks links dcat.distribution
      pure { dcat with distribution := distribution }
    | .undefined => pure dcat
    | .null => pure dcat
  pure (results ++ [dcat])

/-- The loop of `writeItems` over `items` (lines 104-106). `clock i` is the time
value the clock gives to the call of `writeEntry` for the item at index `i`. -/
def writeItemsLoop {Item : Type} (parse : JsVal → Option Int) (clock : Nat → Int)
    (task : Task Item) (options : Options) :
    List Item → Nat → List Dcat → Except JsError (List Dcat)
  | [], _, dataset => .ok dataset
  | item :: rest, i, dataset => do
    let dataset ← writeEntry parse (clock i) task dataset item options
    writeItemsLoop parse clock task options rest (i + 1) dataset

/-- The method `writeItems(task, searchResult)` (lines 84-109). The result is the
`response` handed to `writeResponse`. -/
def writeItems {Item : Type} (parse : JsVal → Option Int) (clock : Nat → Int)
    (task : Task Item) (searchResult : SearchResult Item) : Except JsError Response := do
  let now := task.nowAsString
  let options : Options := { now := now, entryOnly := false }
  let items := searchResult.items.orElse []
  let numReturned := items.length
  let numReturned := if searchResult.itemsPerPage = some 0 then 0 else numReturned
  let response : Response :=
    { conformsTo := "https://project-open-data.cio.gov/v1.1/schema",
      describedBy := "https://project-open-data.cio.gov/v1.1/schema/catalog.json",
      context := "https://project-open-data.cio.gov/v1.1/schema/catalog.jsonld",
      type := "dcat:Catalog",
      start := searchResult.startIndex,
      num := numReturned,
      total := searchResult.totalHits,
      nextStart := searchResult.calcNextRecord,
      dataset := [] }
  let positive : Bool :=
    match searchResult.itemsPerPage with
    | some n => decide (0 < n)
    | none => false
  if positive then do
    let dataset ← writeItemsLoop parse clock task options items 0 response.dataset
    pure { response with dataset := dataset }
  else pure response

/-! ## Example inputs -/

/-- A task whose `itemToJson` is the given function. -/
def taskOf {Item : Type} (itemToJson : Item → Ref Json) : Task Item :=
  { itemToJson := itemToJson, nowAsString := "2024-01-01T00:00:00.000Z" }

/-- The item `{id:"x1", title:"Parks", updated:"2021-06-01T00:00:00Z",
_source:{keywords_s:["parks","gis"], fileid:"abc123"}, links:[]}`. -/
def parksJson : Json :=
  { id := .str "x1", title := .str "Parks", description := .undefined,
    updated := .str "2021-06-01T00:00:00Z", published := .undefined,
    _source := .obj { keywords_s := .arr [.str "parks", .str "gis"], fileid := .str "abc123" },
    links := .obj [] }

/-- The item `{_source:{fileid:"F1"}, links:[{type:"csv", href:"u1"},
{type:"json", href:"u2"}]}`. -/
def twoLinksJson : Json :=
  { emptyJson with
    _source := .obj { keywords_s := .undefined, fileid := .str "F1" },
    links := .obj [.obj { type := .str "csv", href := .str "u1" },
                   .obj { type := .str "json", href := .str "u2" }] }

/-- The item `{title:"", _source:{keywords_s:[]}}`: an empty title and an empty
keyword list. -/
def emptyKeywordsJson : Json :=
  { emptyJson with
    title := .str "",
    _source := .obj { keywords_s := .arr [], fileid := .undefined } }

/-- An `options` value. -/
def someOptions : Options := { now := "2024-01-01T00:00:00.000Z", entryOnly := false }

/-- A task whose items are their own projections. -/
def identityTask : Task Json := taskOf Ref.obj

/-- A search result with the two items `parksJson` and `twoLinksJson` and the
given `itemsPerPage`. -/
def pageOf (itemsPerPage : Option Int) : SearchResult Json :=
  { items := .obj [parksJson, twoLinksJson],
    itemsPerPage := itemsPerPage,
    startIndex := .num 1,
    totalHits := .num 2,
    calcNextRecord := .num (-1) }

/-- A clock that advances one millisecond per reading. -/
def tickingClock (i : Nat) : Int := 1700000000000 + i

/-- The item `{updated:"1970-01-01T00:00:00Z"}`: its only date is the epoch. -/
def epochJson : Json :=
  { emptyJson with updated := .str "1970-01-01T00:00:00Z" }

/-- The item `{links:[{}]}`: one link record with neither `type` nor `href`. -/
def bareLinkJson : Json :=
  { emptyJson with links := .obj [.obj { type := .undefined, href := .undefined }] }

/-- A search result without `items`, with the given `itemsPerPage`. -/
def pageWithoutItems (itemsPerPage : Option Int) : SearchResult Json :=
  { items := .undefined,
    itemsPerPage := itemsPerPage,
    startIndex := .num 1,
    totalHits := .num 0,
    calcNextRecord := .num (-1) }

/-- The item `{links:[null]}`: a link list whose only element is `null`. -/
def nullLinkJson : Json :=
  { emptyJson with links := .obj [.null] }

/-! ## Vocabulary of the statements -/

/-- A `Ref` that holds an object. -/
def Ref.isObj {α : Type} : Ref α → Bool
  | .obj _ => true
  | .undefined => false
  | .null => false

/-- The documented shape of `json.links`: absent, or a sequence of link
records. -/
def Json.linksAreRecords (json : Json) : Bool :=
  match json.links with
  | .obj links => links.all Ref.isObj
  | .undefined => true
  | .null => true

/-! ## Lemmas on values and dates -/

theorem isoString_ne_empty (t : Int) : isoString t ≠ "" := by
  intro h
  have hl := congrArg String.length h
  simp [isoString, String.length] at hl

theorem truthy_null : truthy .null = false := rfl

theorem truthy_isoString (t : Int) : truthy (.str (isoString t)) = true := by
  simp [truthy, isoString_ne_empty]

theorem numTruthy_iff (d : Option Int) :
    numTruthy d = true ↔ ∃ t, d = some t ∧ t ≠ 0 := by
  cases d with
  | none => simp [numTruthy]
  | some t => simp [numTruthy]

/-- What `selectFalidDate` computes from the list of truthy parse results. -/
theorem selectFalidDate_of_filter (parse : JsVal → Option Int) (arguments : List JsVal) :
    (((arguments.map parse).filter numTruthy) = [] ∧
        selectFalidDate parse arguments = .ok .null) ∨
    (∃ t rest, ((arguments.map parse).filter numTruthy) = some t :: rest ∧ t ≠ 0 ∧
        selectFalidDate parse arguments = .ok (.str (isoString t))) := by
  unfold selectFalidDate
  cases hf : (arguments.map parse).filter numTruthy with
  | nil => left; simp
  | cons d rest =>
    right
    have hd : numTruthy d = true := by
      have hmem : d ∈ (arguments.map parse).filter numTruthy := by simp [hf]
      exact (List.mem_filter.mp hmem).2
    obtain ⟨t, rfl, ht⟩ := (numTruthy_iff d).mp hd
    exact ⟨t, rest, rfl, ht, by simp [newDate, JsDate.toISOString]⟩

/-! ## writeEntry -/

theorem pushLinks_records (ls : List Link) (distribution : List Distribution) :
    pushLinks (ls.map Ref.obj) distribution =
      .ok (distribution ++ ls.map (fun l => .access "dcat:Distribution" l.type l.href)) := by
  induction ls generalizing distribution with
  | nil => simp [pushLinks]
  | cons l rest ih => simp [pushLinks, ih]

theorem all_isObj_eq_map {α : Type} (rs : List (Ref α)) (h : rs.all Ref.isObj = true) :
    ∃ ls : List α, rs = ls.map Ref.obj := by
  induction rs with
  | nil => exact ⟨[], rfl⟩
  | cons r rest ih =>
    simp only [List.all_cons, Bool.and_eq_true] at h
    obtain ⟨ls, hls⟩ := ih h.2
    cases r with
    | obj a => exact ⟨a :: ls, by simp [hls]⟩
    | undefined => simp [Ref.isObj] at h
    | null => simp [Ref.isObj] at h

/-- The typed view of `json.links`: the link records, none when `links` is
absent. -/
theorem linksAreRecords_cases (json : Json) (h : json.linksAreRecords = true) :
    (∃ ls : List Link, json.links = .obj (ls.map Ref.obj)) ∨
      json.links = .undefined ∨ json.links = .null := by
  unfold Json.linksAreRecords at h
  cases hl : json.links with
  | obj links =>
    rw [hl] at h
    obtain ⟨ls, hls⟩ := all_isObj_eq_map links h
    exact Or.inl ⟨ls, by rw [hls]⟩
  | undefined => exact Or.inr (Or.inl rfl)
  | null => exact Or.inr (Or.inr rfl)

/-- The record `writeEntry` appends for a projection whose links are records:
`links` is the typed list of them, empty when `json.links` is absent. -/
theorem writeEntry_ok {Item : Type} (parse : JsVal → Option Int) (now : Int)
    (task : Task Item) (results : List Dcat) (item : Item) (options : Options)
    (json : Json) (links : List Link)
    (hjson : (task.itemToJson item).orElse emptyJson = json)
    (hlinks : json.links = .obj (links.map Ref.obj) ∨
      (links = [] ∧ (json.links = .undefined ∨ json.links = .null))) :
    ∃ modified : JsVal,
      ((∃ t, selectFalidDate parse [json.updated, json.published]
              = .ok (.str (isoString t)) ∧ modified = .str (isoString t)) ∨
        (selectFalidDate parse [json.updated, json.published] = .ok .null ∧
          modified = .str (isoString now))) ∧
      writeEntry parse now task results item options = .ok (results ++ [
        { identifier := json.id,
          title := json.title.or (.str "<unknown>"),
          description := json.description.or (.str "<unknown>"),
          modified := modified,
          keyword := (json._source.orElse emptySource).keywords_s.or DCAT_DEFAULTS.keyword,
          distribution :=
            (if truthy (json._source.orElse emptySource).fileid then
              [.download "dcat:Distribution" (json._source.orElse emptySource).fileid]
             else []) ++
            links.map (fun l => .access "dcat:Distribution" l.type l.href),
          type := "dcat:Dataset",
          license := DCAT_DEFAULTS.license,
          accessLevel := DCAT_DEFAULTS.accessLevel,
          bureauCode := DCAT_DEFAULTS.bureauCode,
          programCode := DCAT_DEFAULTS.programCode,
          publisher := DCAT_DEFAULTS.publisher }]) := by
  unfold writeEntry
  simp only [hjson]
  rcases selectFalidDate_of_filter parse [json.updated, json.published] with
    ⟨_, hsel⟩ | ⟨t, _, _, _, hsel⟩
  · refine ⟨.str (isoString now), Or.inr ⟨hsel, rfl⟩, ?_⟩
    rw [hsel]
    rcases hlinks with h | ⟨rfl, h | h⟩ <;> rw [h] <;>
      by_cases hf : truthy (json._source.orElse emptySource).fileid = true <;>
      simp [bind, Except.bind, pure, Except.pure, truthy_null, newDate, JsDate.toISOString,
        pushLinks_records, hf]
  · refine ⟨.str (isoString t), Or.inl ⟨t, hsel, rfl⟩, ?_⟩
    rw [hsel]
    rcases hlinks with h | ⟨rfl, h | h⟩ <;> rw [h] <;>
      by_cases hf : truthy (json._source.orElse emptySource).fileid = true <;>
      simp [bind, Except.bind, pure, Except.pure, truthy_isoString,
        pushLinks_records, hf]

/-- The record `writeEntry` appends when `json.links` has the documented shape. -/
theorem writeEntry_ok_of_linksAreRecords {Item : Type} (parse : JsVal → Option Int)
    (now : Int) (task : Task Item) (results : List Dcat) (item : Item) (options : Options)
    (json : Json) (hjson : (task.itemToJson item).orElse emptyJson = json)
    (hlinks : json.linksAreRecords = true) :
    ∃ (links : List Link) (modified : JsVal),
      (json.links = .obj (links.map Ref.obj) ∨
        (links = [] ∧ (json.links = .undefined ∨ json.links = .null))) ∧
      ((∃ t, selectFalidDate parse [json.updated, json.published]
              = .ok (.str (isoString t)) ∧ modified = .str (isoString t)) ∨
        (selectFalidDate parse [json.updated, json.published] = .ok .null ∧
          modified = .str (isoString now))) ∧
      writeEntry parse now task results item options = .ok (results ++ [
        { identifier := json.id,
          title := json.title.or (.str "<unknown>"),
          description := json.description.or (.str "<unknown>"),
          modified := modified,
          keyword := (json._source.orElse emptySource).keywords_s.or DCAT_DEFAULTS.keyword,
          distribution :=
            (if truthy (json._source.orElse emptySource).fileid then
              [.download "dcat:Distribution" (json._source.orElse emptySource).fileid]
             else []) ++
            links.map (fun l => .access "dcat:Distribution" l.type l.href),
          type := "dcat:Dataset",
          license := DCAT_DEFAULTS.license,
          accessLevel := DCAT_DEFAULTS.accessLevel,
          bureauCode := DCAT_DEFAULTS.bureauCode,
          programCode := DCAT_DEFAULTS.programCode,
          publisher := DCAT_DEFAULTS.publisher }]) := by
  have hshape : ∃ links : List Link, json.links = .obj (links.map Ref.obj) ∨
      (links = [] ∧ (json.links = .undefined ∨ json.links = .null)) := by
    rcases linksAreRecords_cases json hlinks with ⟨ls, h⟩ | h
    · exact ⟨ls, Or.inl h⟩
    · exact ⟨[], Or.inr ⟨rfl, h⟩⟩
  obtain ⟨links, hl⟩ := hshape
  obtain ⟨modified, hm, hw⟩ :=
    writeEntry_ok parse now task results item options json links hjson hl
  exact ⟨links, modified, hl, hm, hw⟩

/-- C3. For every item projection whose links are records and every clock
reading `now`, `writeEntry` appends a record whose `modified` is an ISO text and
never `null`: it is the value of `selectFalidDate(updated, published)` when that
is not `null`, and the ISO text of `now` otherwise. -/
theorem writeEntry_modified {Item : Type} (parse : JsVal → Option Int) (now : Int)
    (task : Task Item) (results : List Dcat) (item : Item) (options : Options)
    (hlinks : ((task.itemToJson item).orElse emptyJson).linksAreRecords = true) :
    ∃ (dcat : Dcat) (selected : JsVal),
      writeEntry parse now task results item options = .ok (results ++ [dcat]) ∧
      selectFalidDate parse [((task.itemToJson item).orElse emptyJson).updated,
        ((task.itemToJson item).orElse emptyJson).published] = .ok selected ∧
      dcat.modified ≠ .null ∧
      (∃ t, dcat.modified = .str (isoString t)) ∧
      (selected ≠ .null → dcat.modified = selected) ∧
      (selected = .null → dcat.modified = .str (isoString now)) := by
  obtain ⟨links, modified, _, hm, hw⟩ :=
    writeEntry_ok_of_linksAreRecords parse now task results item options _ rfl hlinks
  rcases hm with ⟨t, hsel, rfl⟩ | ⟨hsel, rfl⟩
  · exact ⟨_, _, hw, hsel, by simp, ⟨t, rfl⟩, fun _ => rfl, fun h => by simp at h⟩
  · exact ⟨_, _, hw, hsel, by simp, ⟨now, rfl⟩, fun h => absurd rfl h, fun _ => rfl⟩

/-- C3, evaluated at the item `parksJson`, whose `updated` is a valid date. -/
theorem writeEntry_modified_witness :
    ((((taskOf (fun _ : Unit => Ref.obj parksJson)).itemToJson ()).orElse
        emptyJson).linksAreRecords = true) ∧
    ∃ (dcat : Dcat) (selected : JsVal),
      writeEntry isoDateParse 1700000000000 (taskOf (fun _ : Unit => Ref.obj parksJson))
        [] () someOptions = .ok ([] ++ [dcat]) ∧
      selectFalidDate isoDateParse
        [(((taskOf (fun _ : Unit => Ref.obj parksJson)).itemToJson ()).orElse emptyJson).updated,
         (((taskOf (fun _ : Unit => Ref.obj parksJson)).itemToJson ()).orElse emptyJson).published]
        = .ok selected ∧
      dcat.modified ≠ .null ∧
      (∃ t, dcat.modified = .str (isoString t)) ∧
      (selected ≠ .null → dcat.modified = selected) ∧
      (selected = .null → dcat.modified = .str (isoString 1700000000000)) :=
  ⟨rfl, writeEntry_modified isoDateParse 1700000000000
    (taskOf (fun _ : Unit => Ref.obj parksJson)) [] () someOptions rfl⟩

/-- C4, refuted as stated: for the item `{title:"", _source:{keywords_s:[]}}` the
keyword list is present and empty, and the record carries that empty list, not
the defaults' `["metadata"]`. -/
theorem writeEntry_keyword_empty_list_counterexample :
    ∃ dcat : Dcat,
      writeEntry isoDateParse 1700000000000
        (taskOf (fun _ : Unit => Ref.obj emptyKeywordsJson)) [] () someOptions
          = .ok [dcat] ∧
      dcat.keyword = .arr [] ∧
      dcat.keyword ≠ DCAT_DEFAULTS.keyword ∧
      DCAT_DEFAULTS.keyword = .arr [.str "metadata"] := by
  refine ⟨_, rfl, rfl, ?_, rfl⟩
  change JsVal.arr [] ≠ JsVal.arr [JsVal.str "metadata"]
  simp

/-- C4, amended. The record's `keyword` is `_source.keywords_s` whenever that
value is truthy, which every list is, the empty list included; it is the
defaults' list `["metadata"]` when `keywords_s` is falsy, in particular when it
is absent or `null`. -/
theorem writeEntry_keyword {Item : Type} (parse : JsVal → Option Int) (now : Int)
    (task : Task Item) (results : List Dcat) (item : Item) (options : Options)
    (hlinks : ((task.itemToJson item).orElse emptyJson).linksAreRecords = true) :
    ∃ dcat : Dcat,
      writeEntry parse now task results item options = .ok (results ++ [dcat]) ∧
      (∀ elems, ((((task.itemToJson item).orElse emptyJson)._source.orElse
          emptySource).keywords_s = .arr elems) → dcat.keyword = .arr elems) ∧
      (truthy (((task.itemToJson item).orElse emptyJson)._source.orElse
          emptySource).keywords_s = true →
        dcat.keyword = (((task.itemToJson item).orElse emptyJson)._source.orElse
          emptySource).keywords_s) ∧
      (truthy (((task.itemToJson item).orElse emptyJson)._source.orElse
          emptySource).keywords_s = false →
        dcat.keyword = .arr [.str "metadata"]) ∧
      ((((task.itemToJson item).orElse emptyJson)._source.orElse
          emptySource).keywords_s = .undefined ∨
        (((task.itemToJson item).orElse emptyJson)._source.orElse
          emptySource).keywords_s = .null →
        dcat.keyword = .arr [.str "metadata"]) := by
  obtain ⟨links, modified, _, _, hw⟩ :=
    writeEntry_ok_of_linksAreRecords parse now task results item options _ rfl hlinks
  refine ⟨_, hw, ?_, ?_, ?_, ?_⟩
  · intro elems h
    simp [JsVal.or, h, truthy]
  · intro h
    simp [JsVal.or, h]
  · intro h
    simp [JsVal.or, h, DCAT_DEFAULTS]
  · rintro (h | h) <;> simp [JsVal.or, h, truthy, DCAT_DEFAULTS]

/-- C4 as amended, evaluated at the item `parksJson`. -/
theorem writeEntry_keyword_witness :
    ((((taskOf (fun _ : Unit => Ref.obj parksJson)).itemToJson ()).orElse
        emptyJson).linksAreRecords = true) ∧
    ∃ dcat : Dcat,
      writeEntry isoDateParse 1700000000000 (taskOf (fun _ : Unit => Ref.obj parksJson))
        [] () someOptions = .ok [dcat] ∧
      dcat.keyword = .arr [.str "parks", .str "gis"] := by
  refine ⟨rfl, ?_⟩
  obtain ⟨dcat, hw, harr, _⟩ := writeEntry_keyword isoDateParse 1700000000000
    (taskOf (fun _ : Unit => Ref.obj parksJson)) [] () someOptions rfl
  exact ⟨dcat, hw, harr _ rfl⟩

/-- C5. For every item projection with link records `links` (none when
`json.links` is absent), the record's `distribution` is: one file-identifier
entry with `downloadURL = _source.fileid` exactly when `fileid` is truthy (for a
string: non-empty; never when absent), first; then one entry per link, in link
order, with `mediaType = link.type` and `accessURL = link.href`. Its length is
(1 if `fileid` is truthy, else 0) plus the number of links, and it is empty when
there is neither. -/
theorem writeEntry_distribution {Item : Type} (parse : JsVal → Option Int) (now : Int)
    (task : Task Item) (results : List Dcat) (item : Item) (options : Options)
    (links : List Link)
    (hlinks : ((task.itemToJson item).orElse emptyJson).links = .obj (links.map Ref.obj) ∨
      (links = [] ∧ (((task.itemToJson item).orElse emptyJson).links = .undefined ∨
        ((task.itemToJson item).orElse emptyJson).links = .null))) :
    ∃ dcat : Dcat,
      writeEntry parse now task results item options = .ok (results ++ [dcat]) ∧
      dcat.distribution =
        (if truthy (((task.itemToJson item).orElse emptyJson)._source.orElse
            emptySource).fileid then
          [.download "dcat:Distribution"
            (((task.itemToJson item).orElse emptyJson)._source.orElse emptySource).fileid]
         else []) ++
        links.map (fun l => .access "dcat:Distribution" l.type l.href) ∧
      dcat.distribution.length =
        (if truthy (((task.itemToJson item).orElse emptyJson)._source.orElse
            emptySource).fileid then 1 else 0) + links.length ∧
      (truthy (((task.itemToJson item).orElse emptyJson)._source.orElse
            emptySource).fileid = false → links = [] → dcat.distribution = []) ∧
      (∀ s, (((task.itemToJson item).orElse emptyJson)._source.orElse
            emptySource).fileid = .str s →
        (truthy (((task.itemToJson item).orElse emptyJson)._source.orElse
            emptySource).fileid = true ↔ s ≠ "")) ∧
      ((((task.itemToJson item).orElse emptyJson)._source.orElse
            emptySource).fileid = .undefined ∨
        (((task.itemToJson item).orElse emptyJson)._source.orElse
            emptySource).fileid = .null →
        truthy (((task.itemToJson item).orElse emptyJson)._source.orElse
            emptySource).fileid = false) := by
  obtain ⟨modified, _, hw⟩ :=
    writeEntry_ok parse now task results item options _ links rfl hlinks
  refine ⟨_, hw, rfl, ?_, ?_, ?_, ?_⟩
  · by_cases hf : truthy (((task.itemToJson item).orElse emptyJson)._source.orElse
        emptySource).fileid = true
    · simp [hf]; omega
    · simp [hf]
  · intro hf hl
    simp [hf, hl]
  · intro s hs
    simp [hs, truthy]
  · rintro (h | h) <;> simp [h, truthy]

/-- C5, evaluated: with `fileid = "F1"` and the links `csv/u1`, `json/u2` the
distribution is the file entry followed by the two link entries, in that order. -/
theorem writeEntry_distribution_witness :
    ((((taskOf (fun _ : Unit => Ref.obj twoLinksJson)).itemToJson ()).orElse emptyJson).links
        = .obj (([{ type := .str "csv", href := .str "u1" },
                  { type := .str "json", href := .str "u2" }] : List Link).map Ref.obj) ∨
      ((([{ type := .str "csv", href := .str "u1" },
          { type := .str "json", href := .str "u2" }] : List Link) = []) ∧
        ((((taskOf (fun _ : Unit => Ref.obj twoLinksJson)).itemToJson ()).orElse
            emptyJson).links = .undefined ∨
         (((taskOf (fun _ : Unit => Ref.obj twoLinksJson)).itemToJson ()).orElse
            emptyJson).links = .null))) ∧
    ∃ dcat : Dcat,
      writeEntry isoDateParse 1700000000000 (taskOf (fun _ : Unit => Ref.obj twoLinksJson))
        [] () someOptions = .ok [dcat] ∧
      dcat.distribution =
        [.download "dcat:Distribution" (.str "F1"),
         .access "dcat:Distribution" (.str "csv") (.str "u1"),
         .access "dcat:Distribution" (.str "json") (.str "u2")] ∧
      dcat.distribution.length = 3 := by
  refine ⟨Or.inl rfl, ?_⟩
  obtain ⟨dcat, hw, hd, hlen, _⟩ := writeEntry_distribution isoDateParse 1700000000000
    (taskOf (fun _ : Unit => Ref.obj twoLinksJson)) [] () someOptions
    [{ type := .str "csv", href := .str "u1" }, { type := .str "json", href := .str "u2" }]
    (Or.inl rfl)
  exact ⟨dcat, hw, hd, hlen⟩

/-- C10. For every item projection whose links are records, the record's `title`
and `description` are never `undefined`, `null` or the empty string; each is the
item's own value when that is a non-empty string, and the placeholder
`"<unknown>"` when the item's value is absent, `null` or the empty string. -/
theorem writeEntry_title_description {Item : Type} (parse : JsVal → Option Int)
    (now : Int) (task : Task Item) (results : List Dcat) (item : Item) (options : Options)
    (hlinks : ((task.itemToJson item).orElse emptyJson).linksAreRecords = true) :
    ∃ dcat : Dcat,
      writeEntry parse now task results item options = .ok (results ++ [dcat]) ∧
      (truthy dcat.title = true ∧ dcat.title ≠ .undefined ∧ dcat.title ≠ .null ∧
        dcat.title ≠ .str "") ∧
      (truthy dcat.description = true ∧ dcat.description ≠ .undefined ∧
        dcat.description ≠ .null ∧ dcat.description ≠ .str "") ∧
      (∀ s, s ≠ "" → ((task.itemToJson item).orElse emptyJson).title = .str s →
        dcat.title = .str s) ∧
      (∀ s, s ≠ "" → ((task.itemToJson item).orElse emptyJson).description = .str s →
        dcat.description = .str s) ∧
      (((task.itemToJson item).orElse emptyJson).title = .undefined ∨
        ((task.itemToJson item).orElse emptyJson).title = .null ∨
        ((task.itemToJson item).orElse emptyJson).title = .str "" →
        dcat.title = .str "<unknown>") ∧
      (((task.itemToJson item).orElse emptyJson).description = .undefined ∨
        ((task.itemToJson item).orElse emptyJson).description = .null ∨
        ((task.itemToJson item).orElse emptyJson).description = .str "" →
        dcat.description = .str "<unknown>") := by
  obtain ⟨links, modified, _, _, hw⟩ :=
    writeEntry_ok_of_linksAreRecords parse now task results item options _ rfl hlinks
  have hor : ∀ v : JsVal, truthy (v.or (.str "<unknown>")) = true := by
    intro v
    unfold JsVal.or
    by_cases hv : truthy v = true
    · rw [if_pos hv]; exact hv
    · rw [if_neg hv]; rfl
  have hne : ∀ v : JsVal, truthy v = true → v ≠ .undefined ∧ v ≠ .null ∧ v ≠ .str "" := by
    intro v hv
    refine ⟨?_, ?_, ?_⟩ <;> (rintro rfl; simp [truthy] at hv)
  refine ⟨_, hw, ⟨hor _, hne _ (hor _)⟩, ⟨hor _, hne _ (hor _)⟩, ?_, ?_, ?_, ?_⟩
  · intro s hs h
    simp [JsVal.or, h, truthy, hs]
  · intro s hs h
    simp [JsVal.or, h, truthy, hs]
  · rintro (h | h | h) <;> simp [JsVal.or, h, truthy]
  · rintro (h | h | h) <;> simp [JsVal.or, h, truthy]

/-- C10, evaluated at the item `parksJson`: its title `"Parks"` is kept and its
absent description becomes the placeholder. -/
theorem writeEntry_title_description_witness :
    ((((taskOf (fun _ : Unit => Ref.obj parksJson)).itemToJson ()).orElse
        emptyJson).linksAreRecords = true) ∧
    ∃ dcat : Dcat,
      writeEntry isoDateParse 1700000000000 (taskOf (fun _ : Unit => Ref.obj parksJson))
        [] () someOptions = .ok [dcat] ∧
      dcat.title = .str "Parks" ∧ dcat.description = .str "<unknown>" := by
  refine ⟨rfl, ?_⟩
  obtain ⟨dcat, hw, _, _, ht, _, _, hd⟩ := writeEntry_title_description isoDateParse
    1700000000000 (taskOf (fun _ : Unit => Ref.obj parksJson)) [] () someOptions rfl
  exact ⟨dcat, hw, ht "Parks" (by decide) rfl, hd (Or.inl rfl)⟩

/-! ## writeItems -/

/-- The `results` array only receives the new record: a call on `results` is the
call on the empty array with `results` put in front. -/
theorem writeEntry_append {Item : Type} (parse : JsVal → Option Int) (now : Int)
    (task : Task Item) (results : List Dcat) (item : Item) (options : Options) :
    writeEntry parse now task results item options =
      (writeEntry parse now task [] item options).map (fun out => results ++ out) := by
  unfold writeEntry
  simp only []
  rcases selectFalidDate_of_filter parse
      [((task.itemToJson item).orElse emptyJson).updated,
       ((task.itemToJson item).orElse emptyJson).published] with
    ⟨_, hsel⟩ | ⟨t, _, _, _, hsel⟩ <;>
  · rw [hsel]
    cases hl : ((task.itemToJson item).orElse emptyJson).links with
    | obj links =>
      by_cases hf : truthy (((task.itemToJson item).orElse emptyJson)._source.orElse
          emptySource).fileid = true
      · cases hp : pushLinks links
            [.download "dcat:Distribution"
              (((task.itemToJson item).orElse emptyJson)._source.orElse emptySource).fileid] <;>
          simp [bind, Except.bind, pure, Except.pure, Except.map, truthy_null,
            truthy_isoString, newDate, JsDate.toISOString, hf, hp]
      · cases hp : pushLinks links [] <;>
          simp [bind, Except.bind, pure, Except.pure, Except.map, truthy_null,
            truthy_isoString, newDate, JsDate.toISOString, hf, hp]
    | undefined =>
      simp [bind, Except.bind, pure, Except.pure, Except.map, truthy_null,
        truthy_isoString, newDate, JsDate.toISOString]
    | null =>
      simp [bind, Except.bind, pure, Except.pure, Except.map, truthy_null,
        truthy_isoString, newDate, JsDate.toISOString]

/-- The loop of `writeItems` on items whose links are records: it appends one
record per item, in item order, the one `writeEntry` gives for that item at the
clock reading of its turn. -/
theorem writeItemsLoop_ok {Item : Type} (parse : JsVal → Option Int) (clock : Nat → Int)
    (task : Task Item) (options : Options) (items : List Item)
    (hitems : ∀ item ∈ items,
      ((task.itemToJson item).orElse emptyJson).linksAreRecords = true) :
    ∀ (i : Nat) (dataset : List Dcat), ∃ ds : List Dcat,
      writeItemsLoop parse clock task options items i dataset = .ok (dataset ++ ds) ∧
      ds.length = items.length ∧
      ∀ k item, items[k]? = some item →
        ∃ d, ds[k]? = some d ∧
          writeEntry parse (clock (i + k)) task [] item options = .ok [d] := by
  induction items with
  | nil =>
    intro i dataset
    exact ⟨[], by simp [writeItemsLoop], rfl, by simp⟩
  | cons item rest ih =>
    intro i dataset
    have hrest : ∀ x ∈ rest,
        ((task.itemToJson x).orElse emptyJson).linksAreRecords = true :=
      fun x hx => hitems x (List.mem_cons_of_mem _ hx)
    obtain ⟨d0, hw0⟩ : ∃ d0, writeEntry parse (clock i) task [] item options = .ok [d0] := by
      obtain ⟨_, _, _, _, hw⟩ := writeEntry_ok_of_linksAreRecords parse (clock i) task
        [] item options _ rfl (hitems item (List.mem_cons_self _ _))
      exact ⟨_, by simpa using hw⟩
    obtain ⟨ds, hloop, hlen, hget⟩ := ih hrest (i + 1) (dataset ++ [d0])
    refine ⟨d0 :: ds, ?_, by simp [hlen], ?_⟩
    · unfold writeItemsLoop
      rw [writeEntry_append, hw0]
      simp only [Except.map, List.nil_append, bind, Except.bind]
      rw [hloop]
      simp
    · intro k x hk
      cases k with
      | zero =>
        simp only [List.getElem?_cons_zero, Option.some.injEq] at hk
        subst hk
        exact ⟨_, by simp, hw0⟩
      | succ k =>
        simp only [List.getElem?_cons_succ] at hk
        obtain ⟨d, hd, hwd⟩ := hget k x hk
        refine ⟨d, by simpa using hd, ?_⟩
        have hidx : i + (k + 1) = i + 1 + k := by omega
        rw [hidx]
        exact hwd

/-- The envelope when `itemsPerPage` is not greater than 0: the loop is skipped. -/
theorem writeItems_not_positive {Item : Type} (parse : JsVal → Option Int)
    (clock : Nat → Int) (task : Task Item) (searchResult : SearchResult Item)
    (hpage : searchResult.itemsPerPage = none ∨
      ∃ n, searchResult.itemsPerPage = some n ∧ n ≤ 0) :
    writeItems parse clock task searchResult = .ok
      { conformsTo := "https://project-open-data.cio.gov/v1.1/schema",
        describedBy := "https://project-open-data.cio.gov/v1.1/schema/catalog.json",
        context := "https://project-open-data.cio.gov/v1.1/schema/catalog.jsonld",
        type := "dcat:Catalog",
        start := searchResult.startIndex,
        num := if searchResult.itemsPerPage = some 0 then 0
               else (searchResult.items.orElse []).length,
        total := searchResult.totalHits,
        nextStart := searchResult.calcNextRecord,
        dataset := [] } := by
  unfold writeItems
  rcases hpage with h | ⟨n, h, hn⟩
  · simp [h, pure, Except.pure]
  · have hn0 : ¬ (0 < n) := by omega
    simp [h, hn0, pure, Except.pure]

/-- The envelope when `itemsPerPage` is greater than 0 and the links of every
item are records. -/
theorem writeItems_positive {Item : Type} (parse : JsVal → Option Int)
    (clock : Nat → Int) (task : Task Item) (searchResult : SearchResult Item) (n : Int)
    (hpage : searchResult.itemsPerPage = some n) (hn : 0 < n)
    (hitems : ∀ item ∈ searchResult.items.orElse [],
      ((task.itemToJson item).orElse emptyJson).linksAreRecords = true) :
    ∃ ds : List Dcat,
      writeItems parse clock task searchResult = .ok
        { conformsTo := "https://project-open-data.cio.gov/v1.1/schema",
          describedBy := "https://project-open-data.cio.gov/v1.1/schema/catalog.json",
          context := "https://project-open-data.cio.gov/v1.1/schema/catalog.jsonld",
          type := "dcat:Catalog",
          start := searchResult.startIndex,
          num := (searchResult.items.orElse []).length,
          total := searchResult.totalHits,
          nextStart := searchResult.calcNextRecord,
          dataset := ds } ∧
      ds.length = (searchResult.items.orElse []).length ∧
      ∀ k item, (searchResult.items.orElse [])[k]? = some item →
        ∃ d, ds[k]? = some d ∧
          writeEntry parse (clock k) task [] item
            { now := task.nowAsString, entryOnly := false } = .ok [d] := by
  obtain ⟨ds, hloop, hlen, hget⟩ := writeItemsLoop_ok parse clock task
    { now := task.nowAsString, entryOnly := false } (searchResult.items.orElse []) hitems 0 []
  refine ⟨ds, ?_, hlen, ?_⟩
  · unfold writeItems
    have hne : n ≠ 0 := by omega
    simp only [List.nil_append] at hloop
    simp [hpage, hn, hne, hloop, bind, Except.bind, pure, Except.pure]
  · intro k item hk
    obtain ⟨d, hd, hw⟩ := hget k item hk
    exact ⟨d, hd, by simpa using hw⟩

/-- C6. Zero-page policy: for every search result whose `itemsPerPage` is exactly
0, whatever its items, `writeItems` hands over an envelope with `num = 0` and an
empty `dataset`. -/
theorem writeItems_zero_page {Item : Type} (parse : JsVal → Option Int)
    (clock : Nat → Int) (task : Task Item) (searchResult : SearchResult Item)
    (hpage : searchResult.itemsPerPage = some 0) :
    ∃ response : Response,
      writeItems parse clock task searchResult = .ok response ∧
      response.num = 0 ∧ response.dataset = [] := by
  refine ⟨_, writeItems_not_positive parse clock task searchResult
    (Or.inr ⟨0, hpage, le_refl 0⟩), ?_, rfl⟩
  simp [hpage]

/-- C6, evaluated at a page of two items with `itemsPerPage = 0`. -/
theorem writeItems_zero_page_witness :
    (pageOf (some 0)).itemsPerPage = some 0 ∧
    ((pageOf (some 0)).items.orElse []).length = 2 ∧
    ∃ response : Response,
      writeItems isoDateParse tickingClock identityTask (pageOf (some 0)) = .ok response ∧
      response.num = 0 ∧ response.dataset = [] :=
  ⟨rfl, rfl, writeItems_zero_page isoDateParse tickingClock identityTask (pageOf (some 0)) rfl⟩

/-- C7. For every search result with `itemsPerPage > 0` whose items have link
records, the envelope's `dataset` has one record per item, in item order: its
length is the number of items and its record at index `k` is the one `writeEntry`
gives for the item at index `k`. For every search result whose `itemsPerPage` is
absent or not greater than 0 the `dataset` is empty, whatever the items. -/
theorem writeItems_dataset {Item : Type} (parse : JsVal → Option Int)
    (clock : Nat → Int) (task : Task Item) (searchResult : SearchResult Item) :
    (∀ n, searchResult.itemsPerPage = some n → 0 < n →
      (∀ item ∈ searchResult.items.orElse [],
        ((task.itemToJson item).orElse emptyJson).linksAreRecords = true) →
      ∃ response : Response,
        writeItems parse clock task searchResult = .ok response ∧
        response.dataset.length = (searchResult.items.orElse []).length ∧
        ∀ k item, (searchResult.items.orElse [])[k]? = some item →
          ∃ d, response.dataset[k]? = some d ∧
            writeEntry parse (clock k) task [] item
              { now := task.nowAsString, entryOnly := false } = .ok [d]) ∧
    ((searchResult.itemsPerPage = none ∨
        ∃ n, searchResult.itemsPerPage = some n ∧ n ≤ 0) →
      ∃ response : Response,
        writeItems parse clock task searchResult = .ok response ∧
        response.dataset = []) := by
  constructor
  · intro n hpage hn hitems
    obtain ⟨ds, hw, hlen, hget⟩ :=
      writeItems_positive parse clock task searchResult n hpage hn hitems
    exact ⟨_, hw, hlen, hget⟩
  · intro hpage
    exact ⟨_, writeItems_not_positive parse clock task searchResult hpage, rfl⟩

/-- C7, evaluated at a page of two items: with `itemsPerPage = 10` the dataset
has two records, with `itemsPerPage = -1` it is empty. -/
theorem writeItems_dataset_witness :
    (∃ response : Response,
      writeItems isoDateParse tickingClock identityTask (pageOf (some 10)) = .ok response ∧
      response.dataset.length = 2) ∧
    (∃ response : Response,
      writeItems isoDateParse tickingClock identityTask (pageOf (some (-1))) = .ok response ∧
      response.dataset = []) := by
  constructor
  · obtain ⟨response, hw, hlen, _⟩ :=
      (writeItems_dataset isoDateParse tickingClock identityTask (pageOf (some 10))).1
        10 rfl (by decide) (by
          intro item hitem
          simp only [pageOf, Ref.orElse, List.mem_cons, List.mem_singleton,
            List.not_mem_nil, or_false] at hitem
          rcases hitem with rfl | rfl <;> rfl)
    exact ⟨response, hw, hlen⟩
  · exact (writeItems_dataset isoDateParse tickingClock identityTask (pageOf (some (-1)))).2
      (Or.inr ⟨-1, rfl, by decide⟩)

/-- C8, refuted as stated: for a page of two items with `itemsPerPage = -1` the
envelope has `num = 2` and an empty `dataset`. -/
theorem writeItems_num_counterexample :
    ∃ response : Response,
      writeItems isoDateParse tickingClock identityTask (pageOf (some (-1))) = .ok response ∧
      response.num = 2 ∧ response.dataset.length = 0 ∧
      response.num ≠ response.dataset.length :=
  ⟨_, writeItems_not_positive isoDateParse tickingClock identityTask (pageOf (some (-1)))
    (Or.inr ⟨-1, rfl, by decide⟩), rfl, rfl, by decide⟩

/-- C8, amended. For every search result whose `itemsPerPage` is zero or positive
and whose items have link records, the envelope's `num` is the number of records
in its `dataset`. -/
theorem writeItems_num_eq_dataset_length {Item : Type} (parse : JsVal → Option Int)
    (clock : Nat → Int) (task : Task Item) (searchResult : SearchResult Item) (n : Int)
    (hpage : searchResult.itemsPerPage = some n) (hn : 0 ≤ n)
    (hitems : ∀ item ∈ searchResult.items.orElse [],
      ((task.itemToJson item).orElse emptyJson).linksAreRecords = true) :
    ∃ response : Response,
      writeItems parse clock task searchResult = .ok response ∧
      response.num = response.dataset.length := by
  rcases lt_or_eq_of_le hn with hpos | hzero
  · obtain ⟨ds, hw, hlen, _⟩ :=
      writeItems_positive parse clock task searchResult n hpage hpos hitems
    exact ⟨_, hw, hlen.symm⟩
  · subst hzero
    refine ⟨_, writeItems_not_positive parse clock task searchResult
      (Or.inr ⟨0, hpage, le_refl 0⟩), ?_⟩
    simp [hpage]

/-- C8 as amended, evaluated at a page of two items with `itemsPerPage = 10`. -/
theorem writeItems_num_eq_dataset_length_witness :
    (pageOf (some 10)).itemsPerPage = some 10 ∧ (0 : Int) ≤ 10 ∧
    ∃ response : Response,
      writeItems isoDateParse tickingClock identityTask (pageOf (some 10)) = .ok response ∧
      response.num = response.dataset.length :=
  ⟨rfl, by decide,
    writeItems_num_eq_dataset_length isoDateParse tickingClock identityTask
      (pageOf (some 10)) 10 rfl (by decide) (by
        intro item hitem
        simp only [pageOf, Ref.orElse, List.mem_cons, List.mem_singleton,
          List.not_mem_nil, or_false] at hitem
        rcases hitem with rfl | rfl <;> rfl)⟩

/-- C9. For every search result whose `itemsPerPage` is anything but exactly 0
(positive, negative or absent), the envelope's `num` is the number of items of
`searchResult.items`; the items need link records only when the loop runs. -/
theorem writeItems_num_eq_items_length {Item : Type} (parse : JsVal → Option Int)
    (clock : Nat → Int) (task : Task Item) (searchResult : SearchResult Item)
    (hpage : searchResult.itemsPerPage ≠ some 0)
    (hitems : ∀ n, searchResult.itemsPerPage = some n → 0 < n →
      ∀ item ∈ searchResult.items.orElse [],
        ((task.itemToJson item).orElse emptyJson).linksAreRecords = true) :
    ∃ response : Response,
      writeItems parse clock task searchResult = .ok response ∧
      response.num = (searchResult.items.orElse []).length := by
  cases hp : searchResult.itemsPerPage with
  | none =>
    refine ⟨_, writeItems_not_positive parse clock task searchResult (Or.inl hp), ?_⟩
    simp [hp]
  | some n =>
    by_cases hn : 0 < n
    · obtain ⟨ds, hw, _, _⟩ :=
        writeItems_positive parse clock task searchResult n hp hn (hitems n hp hn)
      exact ⟨_, hw, rfl⟩
    · refine ⟨_, writeItems_not_positive parse clock task searchResult
        (Or.inr ⟨n, hp, by omega⟩), ?_⟩
      rw [if_neg hpage]

/-- C9, evaluated at a page of two items whose `itemsPerPage` is absent. -/
theorem writeItems_num_eq_items_length_witness :
    (pageOf none).itemsPerPage ≠ some 0 ∧
    ∃ response : Response,
      writeItems isoDateParse tickingClock identityTask (pageOf none) = .ok response ∧
      response.num = 2 :=
  ⟨by simp [pageOf],
    writeItems_num_eq_items_length isoDateParse tickingClock identityTask (pageOf none)
      (by simp [pageOf]) (by
        intro n hn
        simp [pageOf] at hn)⟩

/-! ## selectFalidDate: zero and unparseable candidates -/

/-- The result of `selectFalidDate` is a function of the list of truthy parse
results. -/
theorem selectFalidDate_congr (parse : JsVal → Option Int) (xs ys : List JsVal)
    (h : (xs.map parse).filter numTruthy = (ys.map parse).filter numTruthy) :
    selectFalidDate parse xs = selectFalidDate parse ys := by
  unfold selectFalidDate
  simp only [h]

theorem numTruthy_false_iff (d : Option Int) :
    numTruthy d = false ↔ d = none ∨ d = some 0 := by
  cases d with
  | none => simp [numTruthy]
  | some t => simp [numTruthy]

theorem filter_numTruthy_eq_nil (parse : JsVal → Option Int) (xs : List JsVal)
    (h : ∀ d ∈ xs, parse d = none ∨ parse d = some 0) :
    (xs.map parse).filter numTruthy = [] := by
  rw [List.filter_eq_nil_iff]
  intro o ho
  obtain ⟨d, hd, rfl⟩ := List.mem_map.mp ho
  simp [(numTruthy_false_iff (parse d)).mpr (h d hd)]

/-- The result when the first candidate with a non-zero time value is known. -/
theorem selectFalidDate_first_nonzero (parse : JsVal → Option Int)
    (pre post : List JsVal) (c : JsVal) (t : Int)
    (hpre : ∀ d ∈ pre, parse d = none ∨ parse d = some 0)
    (hc : parse c = some t) (ht : t ≠ 0) :
    selectFalidDate parse (pre ++ c :: post) = .ok (.str (isoString t)) := by
  have hfilter : ((pre ++ c :: post).map parse).filter numTruthy =
      some t :: (post.map parse).filter numTruthy := by
    have hct : numTruthy (some t) = true := by simp [numTruthy, ht]
    rw [List.map_append, List.filter_append, filter_numTruthy_eq_nil parse pre hpre]
    simp [List.filter, hc, hct]
  rcases selectFalidDate_of_filter parse (pre ++ c :: post) with
    ⟨hnil, _⟩ | ⟨t', rest, hcons, _, hsel⟩
  · rw [hfilter] at hnil
    simp at hnil
  · rw [hfilter] at hcons
    simp only [List.cons.injEq, Option.some.injEq] at hcons
    rw [hsel, ← hcons.1]

/-- C18. A candidate whose parsed time value is 0 is skipped exactly like one
that fails to parse: removing such a candidate from any position leaves the
result unchanged; the result is `null` when every candidate is of these two
kinds; and otherwise it is the ISO text of the first candidate whose parsed time
value is a non-zero number. -/
theorem selectFalidDate_skips_zero (parse : JsVal → Option Int) :
    (∀ (pre post : List JsVal) (z : JsVal), (parse z = some 0 ∨ parse z = none) →
      selectFalidDate parse (pre ++ z :: post) = selectFalidDate parse (pre ++ post)) ∧
    (∀ arguments : List JsVal, (∀ d ∈ arguments, parse d = none ∨ parse d = some 0) →
      selectFalidDate parse arguments = .ok .null) ∧
    (∀ (pre post : List JsVal) (c : JsVal) (t : Int),
      (∀ d ∈ pre, parse d = none ∨ parse d = some 0) → parse c = some t → t ≠ 0 →
      selectFalidDate parse (pre ++ c :: post) = .ok (.str (isoString t))) := by
  refine ⟨?_, ?_, ?_⟩
  · intro pre post z hz
    apply selectFalidDate_congr
    have hzf : numTruthy (parse z) = false :=
      (numTruthy_false_iff (parse z)).mpr (by tauto)
    simp [List.filter_append, List.filter, hzf]
  · intro arguments hall
    rcases selectFalidDate_of_filter parse arguments with ⟨_, hsel⟩ | ⟨t, rest, hcons, _, _⟩
    · exact hsel
    · rw [filter_numTruthy_eq_nil parse arguments hall] at hcons
      simp at hcons
  · intro pre post c t hpre hc ht
    exact selectFalidDate_first_nonzero parse pre post c t hpre hc ht

/-- C18, evaluated: the epoch `1970-01-01T00:00:00Z` parses to 0 and is skipped,
so the later candidate `2022-01-01` is selected; alone, it gives `null`. -/
theorem selectFalidDate_skips_zero_witness :
    isoDateParse (.str "1970-01-01T00:00:00Z") = some 0 ∧
    selectFalidDate isoDateParse [.str "1970-01-01T00:00:00Z", .str "2022-01-01"]
      = selectFalidDate isoDateParse [.str "2022-01-01"] ∧
    selectFalidDate isoDateParse [.str "1970-01-01T00:00:00Z", .str "2022-01-01"]
      = .ok (.str "2022-01-01T00:00:00.000Z") ∧
    selectFalidDate isoDateParse [.str "1970-01-01T00:00:00Z"] = .ok .null :=
  ⟨rfl,
    (selectFalidDate_skips_zero isoDateParse).1 [] [.str "2022-01-01"]
      (.str "1970-01-01T00:00:00Z") (Or.inl rfl),
    (selectFalidDate_skips_zero isoDateParse).2.2 [.str "1970-01-01T00:00:00Z"] []
      (.str "2022-01-01") 1640995200000
      (by
        intro d hd
        simp only [List.mem_singleton] at hd
        subst hd
        exact Or.inr rfl)
      rfl (by decide),
    (selectFalidDate_skips_zero isoDateParse).2.1 [.str "1970-01-01T00:00:00Z"]
      (by
        intro d hd
        simp only [List.mem_singleton] at hd
        subst hd
        exact Or.inr rfl)⟩

/-! ## writeEntry: fallbacks and the worked scenario -/

/-- The date selected from `updated` and `published` when one of them has a
non-zero time value: that of `updated` if it has one, else that of `published`. -/
theorem selectFalidDate_pair (parse : JsVal → Option Int) (u p : JsVal)
    (hdate : (∃ t, parse u = some t ∧ t ≠ 0) ∨ (∃ t, parse p = some t ∧ t ≠ 0)) :
    ∃ t, t ≠ 0 ∧ (parse u = some t ∨ parse p = some t) ∧
      (∀ tu, parse u = some tu → tu ≠ 0 → t = tu) ∧
      selectFalidDate parse [u, p] = .ok (.str (isoString t)) := by
  by_cases hu : ∃ t, parse u = some t ∧ t ≠ 0
  · obtain ⟨t, hut, ht⟩ := hu
    refine ⟨t, ht, Or.inl hut, ?_, ?_⟩
    · intro tu htu _
      rw [hut] at htu
      exact Option.some.inj htu
    · exact selectFalidDate_first_nonzero parse [] [p] u t (by simp) hut ht
  · have hp : ∃ t, parse p = some t ∧ t ≠ 0 := by
      rcases hdate with h | h
      · exact absurd h hu
      · exact h
    obtain ⟨t, hpt, ht⟩ := hp
    refine ⟨t, ht, Or.inr hpt, ?_, ?_⟩
    · intro tu htu htu0
      exact absurd ⟨tu, htu, htu0⟩ hu
    · have hpre : ∀ d ∈ [u], parse d = none ∨ parse d = some 0 := by
        intro d hd
        simp only [List.mem_singleton] at hd
        subst hd
        cases hd' : parse d with
        | none => exact Or.inl rfl
        | some t' =>
          by_cases h0 : t' = 0
          · exact Or.inr (by rw [h0])
          · exact absurd ⟨t', hd', h0⟩ hu
      exact selectFalidDate_first_nonzero parse [u] [] p t hpre hpt ht

/-- C11, refuted as stated: the item whose `updated` is `1970-01-01T00:00:00Z`
has a parseable date (time value 0), and its record carries the ISO text of the
clock reading, not of the source date. -/
theorem writeEntry_source_date_epoch_counterexample :
    isoDateParse epochJson.updated = some 0 ∧
    ∃ dcat : Dcat,
      writeEntry isoDateParse 1700000000000
        (taskOf (fun _ : Unit => Ref.obj epochJson)) [] () someOptions = .ok [dcat] ∧
      dcat.modified = .str (isoString 1700000000000) ∧
      dcat.modified = .str "2023-11-14T22:13:20.000Z" ∧
      dcat.modified ≠ .str (isoString 0) := by
  refine ⟨rfl, _, rfl, rfl, rfl, ?_⟩
  change JsVal.str "2023-11-14T22:13:20.000Z" ≠ JsVal.str "1970-01-01T00:00:00.000Z"
  simp

/-- C11, amended. For every item projection whose links are records, if
`updated` or `published` parses to a non-zero time value, then `modified` is the
ISO text of that source date (that of `updated` when it has one), the same for
every clock reading. -/
theorem writeEntry_source_date {Item : Type} (parse : JsVal → Option Int)
    (task : Task Item) (results : List Dcat) (item : Item) (options : Options)
    (hlinks : ((task.itemToJson item).orElse emptyJson).linksAreRecords = true)
    (hdate : (∃ t, parse ((task.itemToJson item).orElse emptyJson).updated = some t ∧ t ≠ 0) ∨
      (∃ t, parse ((task.itemToJson item).orElse emptyJson).published = some t ∧ t ≠ 0)) :
    ∃ t : Int, t ≠ 0 ∧
      (parse ((task.itemToJson item).orElse emptyJson).updated = some t ∨
        parse ((task.itemToJson item).orElse emptyJson).published = some t) ∧
      (∀ tu, parse ((task.itemToJson item).orElse emptyJson).updated = some tu →
        tu ≠ 0 → t = tu) ∧
      ∀ now : Int, ∃ dcat : Dcat,
        writeEntry parse now task results item options = .ok (results ++ [dcat]) ∧
        dcat.modified = .str (isoString t) := by
  obtain ⟨t, ht, hsrc, hfirst, hsel⟩ := selectFalidDate_pair parse _ _ hdate
  refine ⟨t, ht, hsrc, hfirst, ?_⟩
  intro now
  obtain ⟨links, modified, _, hm, hw⟩ :=
    writeEntry_ok_of_linksAreRecords parse now task results item options _ rfl hlinks
  refine ⟨_, hw, ?_⟩
  rcases hm with ⟨t', hsel', rfl⟩ | ⟨hsel', _⟩
  · rw [hsel] at hsel'
    simp only [Except.ok.injEq, JsVal.str.injEq] at hsel'
    simp [hsel']
  · rw [hsel] at hsel'
    simp at hsel'

/-- C11 as amended, evaluated at the item `parksJson`: its `updated` has the time
value 1622505600000 and `modified` is its ISO text at two clock readings. -/
theorem writeEntry_source_date_witness :
    (∃ dcat : Dcat,
      writeEntry isoDateParse 1700000000000 (taskOf (fun _ : Unit => Ref.obj parksJson))
        [] () someOptions = .ok [dcat] ∧
      dcat.modified = .str (isoString 1622505600000)) ∧
    (∃ dcat : Dcat,
      writeEntry isoDateParse 0 (taskOf (fun _ : Unit => Ref.obj parksJson))
        [] () someOptions = .ok [dcat] ∧
      dcat.modified = .str (isoString 1622505600000)) := by
  obtain ⟨t, _, _, hfirst, hall⟩ := writeEntry_source_date isoDateParse
    (taskOf (fun _ : Unit => Ref.obj parksJson)) [] () someOptions rfl
    (Or.inl ⟨1622505600000, rfl, by decide⟩)
  have ht : t = 1622505600000 := hfirst 1622505600000 rfl (by decide)
  subst ht
  exact ⟨hall 1700000000000, hall 0⟩

/-- C12. Missing projection: when `itemToJson` returns `undefined` or `null` (and
`Date.parse(undefined)` is `NaN`), `writeEntry` does not fail and appends one
record: placeholder title and description, the defaults' keyword list, an empty
distribution, the ISO text of the clock reading as `modified`, and the defaults
in the fixed fields. -/
theorem writeEntry_missing_projection {Item : Type} (parse : JsVal → Option Int)
    (now : Int) (task : Task Item) (results : List Dcat) (item : Item) (options : Options)
    (hmissing : task.itemToJson item = .undefined ∨ task.itemToJson item = .null)
    (hparse : parse .undefined = none) :
    writeEntry parse now task results item options = .ok (results ++ [
      { identifier := .undefined,
        title := .str "<unknown>",
        description := .str "<unknown>",
        modified := .str (isoString now),
        keyword := .arr [.str "metadata"],
        distribution := [],
        type := "dcat:Dataset",
        license := "http://www.usa.gov/publicdomain/label/1.0/",
        accessLevel := "public",
        bureauCode := ["010:04"],
        programCode := ["010:000"],
        publisher := { type := "org:Organization", name := "Your Publisher" } }]) := by
  have hjson : (task.itemToJson item).orElse emptyJson = emptyJson := by
    rcases hmissing with h | h <;> rw [h] <;> rfl
  obtain ⟨modified, hm, hw⟩ := writeEntry_ok parse now task results item options
    emptyJson [] hjson (Or.inr ⟨rfl, Or.inl rfl⟩)
  have hnull : selectFalidDate parse [emptyJson.updated, emptyJson.published] = .ok .null := by
    rcases selectFalidDate_of_filter parse [emptyJson.updated, emptyJson.published] with
      ⟨_, hsel⟩ | ⟨t, rest, hcons, _, _⟩
    · exact hsel
    · rw [filter_numTruthy_eq_nil parse _ (by
        intro d hd
        simp only [emptyJson, List.mem_cons, List.mem_singleton, List.not_mem_nil,
          or_false, or_self] at hd
        subst hd
        exact Or.inl hparse)] at hcons
      simp at hcons
  have hmod : modified = .str (isoString now) := by
    rcases hm with ⟨t, hsel, _⟩ | ⟨_, h⟩
    · rw [hnull] at hsel
      simp at hsel
    · exact h
  rw [hw, hmod]
  rfl

/-- C12, evaluated with the reference parser at a task whose `itemToJson` returns
`null`. -/
theorem writeEntry_missing_projection_witness :
    ((taskOf (fun _ : Unit => (Ref.null : Ref Json))).itemToJson () = .undefined ∨
      (taskOf (fun _ : Unit => (Ref.null : Ref Json))).itemToJson () = .null) ∧
    isoDateParse .undefined = none ∧
    ∃ dcat : Dcat,
      writeEntry isoDateParse 1700000000000 (taskOf (fun _ : Unit => (Ref.null : Ref Json)))
        [] () someOptions = .ok ([] ++ [dcat]) ∧
      dcat.title = .str "<unknown>" ∧ dcat.distribution = [] ∧
      dcat.modified = .str "2023-11-14T22:13:20.000Z" :=
  ⟨Or.inr rfl, rfl, _,
    writeEntry_missing_projection isoDateParse 1700000000000
      (taskOf (fun _ : Unit => (Ref.null : Ref Json))) [] () someOptions (Or.inr rfl) rfl,
    rfl, rfl, rfl⟩

/-- C13, refuted as stated: for the scenario item the single distribution entry
has the `@type` value `"dcat:Distribution"`, not `"Distribution"`. -/
theorem writeEntry_scenario_counterexample :
    ∃ dcat : Dcat,
      writeEntry isoDateParse 1700000000000
        (taskOf (fun _ : Unit => Ref.obj parksJson)) [] () someOptions = .ok [dcat] ∧
      dcat.distribution = [.download "dcat:Distribution" (.str "abc123")] ∧
      dcat.distribution ≠ [.download "Distribution" (.str "abc123")] := by
  refine ⟨_, rfl, rfl, ?_⟩
  change [Distribution.download "dcat:Distribution" (.str "abc123")] ≠
    [Distribution.download "Distribution" (.str "abc123")]
  simp

/-- C13, amended. The worked scenario with the distribution entry as the code
writes it: for the item `parksJson` (and a `Date.parse` that gives
`2021-06-01T00:00:00Z` its time value 1622505600000) the appended record has
identifier `"x1"`, title `"Parks"`, description `"<unknown>"`, modified
`"2021-06-01T00:00:00.000Z"`, keyword `["parks","gis"]`, the single distribution
entry with `@type` `"dcat:Distribution"` and downloadURL `"abc123"`, `@type`
`"dcat:Dataset"`, the default license and accessLevel `"public"`. -/
theorem writeEntry_scenario {Item : Type} (parse : JsVal → Option Int) (now : Int)
    (task : Task Item) (results : List Dcat) (item : Item) (options : Options)
    (hitem : task.itemToJson item = .obj parksJson)
    (hparse : parse (.str "2021-06-01T00:00:00Z") = some 1622505600000) :
    writeEntry parse now task results item options = .ok (results ++ [
      { identifier := .str "x1",
        title := .str "Parks",
        description := .str "<unknown>",
        modified := .str "2021-06-01T00:00:00.000Z",
        keyword := .arr [.str "parks", .str "gis"],
        distribution := [.download "dcat:Distribution" (.str "abc123")],
        type := "dcat:Dataset",
        license := "http://www.usa.gov/publicdomain/label/1.0/",
        accessLevel := "public",
        bureauCode := ["010:04"],
        programCode := ["010:000"],
        publisher := { type := "org:Organization", name := "Your Publisher" } }]) := by
  have hjson : (task.itemToJson item).orElse emptyJson = parksJson := by
    rw [hitem]; rfl
  obtain ⟨modified, hm, hw⟩ := writeEntry_ok parse now task results item options
    parksJson [] hjson (Or.inl rfl)
  have hsel : selectFalidDate parse [parksJson.updated, parksJson.published]
      = .ok (.str (isoString 1622505600000)) :=
    selectFalidDate_first_nonzero parse [] [parksJson.published] parksJson.updated
      1622505600000 (by simp) hparse (by decide)
  have hmod : modified = .str (isoString 1622505600000) := by
    rcases hm with ⟨t, hsel', h⟩ | ⟨hsel', _⟩
    · rw [hsel] at hsel'
      simp only [Except.ok.injEq, JsVal.str.injEq] at hsel'
      rw [h, ← hsel']
    · rw [hsel] at hsel'
      simp at hsel'
  rw [hw, hmod]
  rfl

/-- C13 as amended, evaluated with the reference parser. -/
theorem writeEntry_scenario_witness :
    (taskOf (fun _ : Unit => Ref.obj parksJson)).itemToJson () = .obj parksJson ∧
    isoDateParse (.str "2021-06-01T00:00:00Z") = some 1622505600000 ∧
    ∃ dcat : Dcat,
      writeEntry isoDateParse 1700000000000 (taskOf (fun _ : Unit => Ref.obj parksJson))
        [] () someOptions = .ok ([] ++ [dcat]) ∧
      dcat.identifier = .str "x1" ∧ dcat.modified = .str "2021-06-01T00:00:00.000Z" ∧
      dcat.accessLevel = "public" :=
  ⟨rfl, rfl, _,
    writeEntry_scenario isoDateParse 1700000000000
      (taskOf (fun _ : Unit => Ref.obj parksJson)) [] () someOptions rfl rfl,
    rfl, rfl, rfl⟩

/-- C15. Defaults are never overridden per item: for every two item projections
(whose links are records) the two records carry the same `license`,
`accessLevel`, `bureauCode`, `programCode` and `publisher`, each the constant of
`DCAT_DEFAULTS`, whatever the fields of the items, the clock readings and the
parsers. -/
theorem writeEntry_defaults {Item₁ Item₂ : Type} (parse₁ parse₂ : JsVal → Option Int)
    (now₁ now₂ : Int) (task₁ : Task Item₁) (task₂ : Task Item₂)
    (results₁ results₂ : List Dcat) (item₁ : Item₁) (item₂ : Item₂)
    (options₁ options₂ : Options)
    (hlinks₁ : ((task₁.itemToJson item₁).orElse emptyJson).linksAreRecords = true)
    (hlinks₂ : ((task₂.itemToJson item₂).orElse emptyJson).linksAreRecords = true) :
    ∃ dcat₁ dcat₂ : Dcat,
      writeEntry parse₁ now₁ task₁ results₁ item₁ options₁ = .ok (results₁ ++ [dcat₁]) ∧
      writeEntry parse₂ now₂ task₂ results₂ item₂ options₂ = .ok (results₂ ++ [dcat₂]) ∧
      (dcat₁.license = dcat₂.license ∧ dcat₁.accessLevel = dcat₂.accessLevel ∧
        dcat₁.bureauCode = dcat₂.bureauCode ∧ dcat₁.programCode = dcat₂.programCode ∧
        dcat₁.publisher = dcat₂.publisher) ∧
      (dcat₁.license = DCAT_DEFAULTS.license ∧
        dcat₁.accessLevel = DCAT_DEFAULTS.accessLevel ∧
        dcat₁.bureauCode = DCAT_DEFAULTS.bureauCode ∧
        dcat₁.programCode = DCAT_DEFAULTS.programCode ∧
        dcat₁.publisher = DCAT_DEFAULTS.publisher) ∧
      (dcat₁.license = "http://www.usa.gov/publicdomain/label/1.0/" ∧
        dcat₁.accessLevel = "public" ∧
        dcat₁.bureauCode = ["010:04"] ∧
        dcat₁.programCode = ["010:000"] ∧
        dcat₁.publisher = { type := "org:Organization", name := "Your Publisher" }) := by
  obtain ⟨_, _, _, _, hw₁⟩ := writeEntry_ok_of_linksAreRecords parse₁ now₁ task₁
    results₁ item₁ options₁ _ rfl hlinks₁
  obtain ⟨_, _, _, _, hw₂⟩ := writeEntry_ok_of_linksAreRecords parse₂ now₂ task₂
    results₂ item₂ options₂ _ rfl hlinks₂
  exact ⟨_, _, hw₁, hw₂, ⟨rfl, rfl, rfl, rfl, rfl⟩, ⟨rfl, rfl, rfl, rfl, rfl⟩,
    ⟨rfl, rfl, rfl, rfl, rfl⟩⟩

/-- C15, evaluated at the two different items `parksJson` and `twoLinksJson`, at
two clock readings. -/
theorem writeEntry_defaults_witness :
    ((identityTask.itemToJson parksJson).orElse emptyJson).linksAreRecords = true ∧
    ((identityTask.itemToJson twoLinksJson).orElse emptyJson).linksAreRecords = true ∧
    ∃ dcat₁ dcat₂ : Dcat,
      writeEntry isoDateParse 1700000000000 identityTask [] parksJson someOptions
        = .ok ([] ++ [dcat₁]) ∧
      writeEntry isoDateParse 1700000000001 identityTask [] twoLinksJson someOptions
        = .ok ([] ++ [dcat₂]) ∧
      dcat₁.license = dcat₂.license ∧ dcat₁.accessLevel = dcat₂.accessLevel ∧
      dcat₁.bureauCode = dcat₂.bureauCode ∧ dcat₁.programCode = dcat₂.programCode ∧
      dcat₁.publisher = dcat₂.publisher := by
  obtain ⟨dcat₁, dcat₂, hw₁, hw₂, hsame, _, _⟩ :=
    writeEntry_defaults isoDateParse isoDateParse 1700000000000 1700000000001
      identityTask identityTask [] [] parksJson twoLinksJson someOptions someOptions rfl rfl
  exact ⟨rfl, rfl, dcat₁, dcat₂, hw₁, hw₂, hsame⟩

/-! ## writeEntry: completion, frame and independence of `options` -/

/-- Whenever `writeEntry` completes, the array it leaves is `results` followed by
one record. -/
theorem writeEntry_ok_shape {Item : Type} (parse : JsVal → Option Int) (now : Int)
    (task : Task Item) (results : List Dcat) (item : Item) (options : Options)
    (out : List Dcat)
    (hout : writeEntry parse now task results item options = .ok out) :
    ∃ dcat : Dcat, out = results ++ [dcat] := by
  rw [writeEntry_append] at hout
  cases h0 : writeEntry parse now task [] item options with
  | error e =>
    rw [h0] at hout
    simp [Except.map] at hout
  | ok out0 =>
    rw [h0] at hout
    simp only [Except.map, Except.ok.injEq] at hout
    by_cases hlinks : ((task.itemToJson item).orElse emptyJson).linksAreRecords = true
    · obtain ⟨_, _, _, _, hw⟩ := writeEntry_ok_of_linksAreRecords parse now task
        [] item options _ rfl hlinks
      rw [h0] at hw
      simp only [List.nil_append, Except.ok.injEq] at hw
      exact ⟨_, by rw [← hout, hw]⟩
    · exfalso
      unfold Json.linksAreRecords at hlinks
      unfold writeEntry at h0
      simp only [] at h0
      cases hl : ((task.itemToJson item).orElse emptyJson).links with
      | undefined => rw [hl] at hlinks; simp at hlinks
      | null => rw [hl] at hlinks; simp at hlinks
      | obj links =>
        rw [hl] at hlinks h0
        have hpush : ∀ acc : List Distribution, ∃ e, pushLinks links acc = .error e := by
          clear h0 hl
          induction links with
          | nil => simp at hlinks
          | cons r rest ih =>
            intro acc
            cases r with
            | undefined => exact ⟨_, rfl⟩
            | null => exact ⟨_, rfl⟩
            | obj link =>
              simp only [List.all_cons, Ref.isObj, Bool.true_and] at hlinks
              simpa [pushLinks] using ih hlinks _
        rcases selectFalidDate_of_filter parse
            [((task.itemToJson item).orElse emptyJson).updated,
             ((task.itemToJson item).orElse emptyJson).published] with
          ⟨_, hsel⟩ | ⟨t, _, _, _, hsel⟩ <;>
        · rw [hsel] at h0
          by_cases hf : truthy (((task.itemToJson item).orElse emptyJson)._source.orElse
              emptySource).fileid = true
          · obtain ⟨e, he⟩ := hpush [.download "dcat:Distribution"
              (((task.itemToJson item).orElse emptyJson)._source.orElse emptySource).fileid]
            simp [bind, Except.bind, pure, Except.pure, truthy_null, truthy_isoString,
              newDate, JsDate.toISOString, hf, he] at h0
          · obtain ⟨e, he⟩ := hpush []
            simp [bind, Except.bind, pure, Except.pure, truthy_null, truthy_isoString,
              newDate, JsDate.toISOString, hf, he] at h0

/-- The call depends on the task and the item only through the projection, and
not on `options`. -/
theorem writeEntry_congr {Item₁ Item₂ : Type} (parse : JsVal → Option Int) (now : Int)
    (task₁ : Task Item₁) (task₂ : Task Item₂) (results : List Dcat)
    (item₁ : Item₁) (item₂ : Item₂) (options₁ options₂ : Options)
    (hproj : task₁.itemToJson item₁ = task₂.itemToJson item₂) :
    writeEntry parse now task₁ results item₁ options₁ =
      writeEntry parse now task₂ results item₂ options₂ := by
  unfold writeEntry
  rw [hproj]

theorem writeItemsLoop_congr {Item : Type} (parse : JsVal → Option Int)
    (clock : Nat → Int) (task₁ task₂ : Task Item) (options₁ options₂ : Options)
    (hproj : ∀ item, task₁.itemToJson item = task₂.itemToJson item) (items : List Item) :
    ∀ (i : Nat) (dataset : List Dcat),
      writeItemsLoop parse clock task₁ options₁ items i dataset =
        writeItemsLoop parse clock task₂ options₂ items i dataset := by
  induction items with
  | nil => intro i dataset; rfl
  | cons item rest ih =>
    intro i dataset
    unfold writeItemsLoop
    rw [writeEntry_congr parse (clock i) task₁ task₂ dataset item item options₁ options₂
      (hproj item)]
    cases writeEntry parse (clock i) task₂ dataset item options₂ with
    | error e => rfl
    | ok out => exact ih (i + 1) out

/-- C16. No exception under the documented input: for every item projection whose
`links` is absent or a sequence of link records (every other field, and `type`
and `href` of a link, may be absent, and the projection itself may be missing),
`writeEntry` completes normally, raises no exception, and appends a record. -/
theorem writeEntry_completes {Item : Type} (parse : JsVal → Option Int) (now : Int)
    (task : Task Item) (results : List Dcat) (item : Item) (options : Options)
    (hlinks : ((task.itemToJson item).orElse emptyJson).linksAreRecords = true) :
    (∃ dcat : Dcat,
      writeEntry parse now task results item options = .ok (results ++ [dcat])) ∧
    ∀ e : JsError, writeEntry parse now task results item options ≠ .error e := by
  obtain ⟨_, _, _, _, hw⟩ :=
    writeEntry_ok_of_linksAreRecords parse now task results item options _ rfl hlinks
  refine ⟨⟨_, hw⟩, ?_⟩
  intro e he
  rw [hw] at he
  simp at he

/-- C16, evaluated at the item `{links:[{}]}`, all of whose named fields are
absent; for contrast, a `null` link element is a `TypeError`. -/
theorem writeEntry_completes_witness :
    ((identityTask.itemToJson bareLinkJson).orElse emptyJson).linksAreRecords = true ∧
    ((∃ dcat : Dcat,
        writeEntry isoDateParse 1700000000000 identityTask [] bareLinkJson someOptions
          = .ok ([] ++ [dcat])) ∧
      ∀ e : JsError,
        writeEntry isoDateParse 1700000000000 identityTask [] bareLinkJson someOptions
          ≠ .error e) ∧
    writeEntry isoDateParse 1700000000000 identityTask [] nullLinkJson someOptions
      = .error .typeError :=
  ⟨rfl,
    writeEntry_completes isoDateParse 1700000000000 identityTask [] bareLinkJson
      someOptions rfl,
    rfl⟩

/-- C20. `writeEntry` only appends: whenever it completes, the array is the
previous `results`, every earlier record unchanged and in the same order,
followed by exactly one new record; and it completes when the links of the
projection are records. -/
theorem writeEntry_only_appends {Item : Type} (parse : JsVal → Option Int) (now : Int)
    (task : Task Item) (results : List Dcat) (item : Item) (options : Options) :
    (∀ out : List Dcat, writeEntry parse now task results item options = .ok out →
      (∃ dcat : Dcat, out = results ++ [dcat]) ∧
      out.length = results.length + 1 ∧
      out.take results.length = results ∧
      ∀ k, k < results.length → out[k]? = results[k]?) ∧
    (((task.itemToJson item).orElse emptyJson).linksAreRecords = true →
      ∃ dcat : Dcat,
        writeEntry parse now task results item options = .ok (results ++ [dcat])) := by
  constructor
  · intro out hout
    obtain ⟨dcat, rfl⟩ := writeEntry_ok_shape parse now task results item options out hout
    refine ⟨⟨dcat, rfl⟩, by simp, by simp, ?_⟩
    intro k hk
    exact List.getElem?_append_left hk
  · intro hlinks
    obtain ⟨_, _, _, _, hw⟩ :=
      writeEntry_ok_of_linksAreRecords parse now task results item options _ rfl hlinks
    exact ⟨_, hw⟩

/-- C20, evaluated: a second call leaves the record of the first call in front. -/
theorem writeEntry_only_appends_witness :
    ∃ first second : Dcat,
      writeEntry isoDateParse 1700000000000 identityTask [] parksJson someOptions
        = .ok ([] ++ [first]) ∧
      writeEntry isoDateParse 1700000000001 identityTask ([] ++ [first]) twoLinksJson
        someOptions = .ok (([] ++ [first]) ++ [second]) := by
  obtain ⟨first, h₁⟩ :=
    (writeEntry_only_appends isoDateParse 1700000000000 identityTask [] parksJson
      someOptions).2 rfl
  obtain ⟨second, h₂⟩ :=
    (writeEntry_only_appends isoDateParse 1700000000001 identityTask ([] ++ [first])
      twoLinksJson someOptions).2 rfl
  exact ⟨first, second, h₁, h₂⟩

/-- C19. The record `writeEntry` appends is a function of the projection of the
item, the clock reading of the call, `Date.parse` and `results`: it is the same
for every `options` argument and every task that gives the same projection
(whatever its `nowAsString`), the page built by `writeItems` does not depend on
`task.val.nowAsString()`, and when neither date of the item parses to a non-zero
time value, `modified` is the ISO text of the clock reading of that call. -/
theorem writeEntry_options_independent {Item : Type} (parse : JsVal → Option Int)
    (now : Int) (task : Task Item) (results : List Dcat) (item : Item) :
    (∀ options₁ options₂ : Options,
      writeEntry parse now task results item options₁ =
        writeEntry parse now task results item options₂) ∧
    (∀ (Item₂ : Type) (task₂ : Task Item₂) (item₂ : Item₂) (options₁ options₂ : Options),
      task.itemToJson item = task₂.itemToJson item₂ →
      writeEntry parse now task results item options₁ =
        writeEntry parse now task₂ results item₂ options₂) ∧
    (∀ (clock : Nat → Int) (searchResult : SearchResult Item) (pageNow : String),
      writeItems parse clock { task with nowAsString := pageNow } searchResult =
        writeItems parse clock task searchResult) ∧
    (∀ options : Options,
      ((task.itemToJson item).orElse emptyJson).linksAreRecords = true →
      (∀ d ∈ [((task.itemToJson item).orElse emptyJson).updated,
              ((task.itemToJson item).orElse emptyJson).published],
        parse d = none ∨ parse d = some 0) →
      ∃ dcat : Dcat,
        writeEntry parse now task results item options = .ok (results ++ [dcat]) ∧
        dcat.modified = .str (isoString now)) := by
  refine ⟨?_, ?_, ?_, ?_⟩
  · intro options₁ options₂
    exact writeEntry_congr parse now task task results item item options₁ options₂ rfl
  · intro Item₂ task₂ item₂ options₁ options₂ hproj
    exact writeEntry_congr parse now task task₂ results item item₂ options₁ options₂ hproj
  · intro clock searchResult pageNow
    unfold writeItems
    simp only []
    rw [writeItemsLoop_congr parse clock { task with nowAsString := pageNow } task
      { now := pageNow, entryOnly := false } { now := task.nowAsString, entryOnly := false }
      (fun _ => rfl)]
  · intro options hlinks hdates
    obtain ⟨_, modified, _, hm, hw⟩ :=
      writeEntry_ok_of_linksAreRecords parse now task results item options _ rfl hlinks
    refine ⟨_, hw, ?_⟩
    rcases hm with ⟨t, hsel, _⟩ | ⟨_, h⟩
    · rcases selectFalidDate_of_filter parse
          [((task.itemToJson item).orElse emptyJson).updated,
           ((task.itemToJson item).orElse emptyJson).published] with
        ⟨_, hnull⟩ | ⟨t', rest, hcons, _, _⟩
      · rw [hnull] at hsel
        simp at hsel
      · rw [filter_numTruthy_eq_nil parse _ hdates] at hcons
        simp at hcons
    · exact h

/-- C19, evaluated: for an item without dates, two calls that differ in `options`
and in the page-level `nowAsString` give the same record, whose `modified` is the
ISO text of the clock reading. -/
theorem writeEntry_options_independent_witness :
    writeEntry isoDateParse 1700000000000 identityTask [] twoLinksJson someOptions =
      writeEntry isoDateParse 1700000000000
        { identityTask with nowAsString := "1999-12-31T23:59:59.000Z" } [] twoLinksJson
        { now := "1999-12-31T23:59:59.000Z", entryOnly := true } ∧
    ∃ dcat : Dcat,
      writeEntry isoDateParse 1700000000000 identityTask [] twoLinksJson
        { now := "1999-12-31T23:59:59.000Z", entryOnly := true } = .ok ([] ++ [dcat]) ∧
      dcat.modified = .str (isoString 1700000000000) :=
  ⟨(writeEntry_options_independent isoDateParse 1700000000000 identityTask []
      twoLinksJson).2.1 Json { identityTask with nowAsString := "1999-12-31T23:59:59.000Z" }
      twoLinksJson someOptions { now := "1999-12-31T23:59:59.000Z", entryOnly := true } rfl,
    (writeEntry_options_independent isoDateParse 1700000000000 identityTask []
      twoLinksJson).2.2.2 { now := "1999-12-31T23:59:59.000Z", entryOnly := true } rfl
      (by
        intro d hd
        simp only [List.mem_cons, List.mem_singleton, List.not_mem_nil, or_false] at hd
        rcases hd with rfl | rfl <;> exact Or.inl rfl)⟩

/-! ## writeItems: missing items and the fixed fields -/

/-- C14. Missing items: for every search result whose `items` is absent (or
`null`), whatever its `itemsPerPage`, `writeItems` raises no exception and hands
over an envelope with `num = 0` and an empty `dataset`. -/
theorem writeItems_missing_items {Item : Type} (parse : JsVal → Option Int)
    (clock : Nat → Int) (task : Task Item) (searchResult : SearchResult Item)
    (hitems : searchResult.items = .undefined ∨ searchResult.items = .null) :
    ∃ response : Response,
      writeItems parse clock task searchResult = .ok response ∧
      response.num = 0 ∧ response.dataset = [] := by
  have hempty : searchResult.items.orElse [] = [] := by
    rcases hitems with h | h <;> rw [h] <;> rfl
  cases hp : searchResult.itemsPerPage with
  | none =>
    refine ⟨_, writeItems_not_positive parse clock task searchResult (Or.inl hp), ?_, rfl⟩
    simp [hp, hempty]
  | some n =>
    by_cases hn : 0 < n
    · obtain ⟨ds, hw, hlen, _⟩ := writeItems_positive parse clock task searchResult n hp hn
        (by rw [hempty]; simp)
      refine ⟨_, hw, by simp [hempty], ?_⟩
      rw [hempty] at hlen
      exact List.length_eq_zero.mp hlen
    · refine ⟨_, writeItems_not_positive parse clock task searchResult
        (Or.inr ⟨n, hp, by omega⟩), ?_, rfl⟩
      simp [hempty]

/-- C14, evaluated at a search result without `items`, with `itemsPerPage = 10`. -/
theorem writeItems_missing_items_witness :
    ((pageWithoutItems (some 10)).items = .undefined ∨
      (pageWithoutItems (some 10)).items = .null) ∧
    ∃ response : Response,
      writeItems isoDateParse tickingClock identityTask (pageWithoutItems (some 10))
        = .ok response ∧
      response.num = 0 ∧ response.dataset = [] :=
  ⟨Or.inl rfl,
    writeItems_missing_items isoDateParse tickingClock identityTask
      (pageWithoutItems (some 10)) (Or.inl rfl)⟩

/-- C17. The fixed envelope fields are constants: for every search result (whose
items have link records when the loop runs), every task, parser and clock, the
envelope has `conformsTo`, `describedBy`, `@context` and `@type` equal to the four
schema-identifying texts, whatever `items`, `itemsPerPage`, `startIndex` and
`totalHits` are. -/
theorem writeItems_fixed_fields {Item : Type} (parse : JsVal → Option Int)
    (clock : Nat → Int) (task : Task Item) (searchResult : SearchResult Item)
    (hitems : ∀ n, searchResult.itemsPerPage = some n → 0 < n →
      ∀ item ∈ searchResult.items.orElse [],
        ((task.itemToJson item).orElse emptyJson).linksAreRecords = true) :
    ∃ response : Response,
      writeItems parse clock task searchResult = .ok response ∧
      response.conformsTo = "https://project-open-data.cio.gov/v1.1/schema" ∧
      response.describedBy = "https://project-open-data.cio.gov/v1.1/schema/catalog.json" ∧
      response.context = "https://project-open-data.cio.gov/v1.1/schema/catalog.jsonld" ∧
      response.type = "dcat:Catalog" := by
  cases hp : searchResult.itemsPerPage with
  | none =>
    exact ⟨_, writeItems_not_positive parse clock task searchResult (Or.inl hp),
      rfl, rfl, rfl, rfl⟩
  | some n =>
    by_cases hn : 0 < n
    · obtain ⟨ds, hw, _, _⟩ :=
        writeItems_positive parse clock task searchResult n hp hn (hitems n hp hn)
      exact ⟨_, hw, rfl, rfl, rfl, rfl⟩
    · exact ⟨_, writeItems_not_positive parse clock task searchResult
        (Or.inr ⟨n, hp, by omega⟩), rfl, rfl, rfl, rfl⟩

/-- C17, evaluated at a page of two items with `itemsPerPage = 10`. -/
theorem writeItems_fixed_fields_witness :
    ∃ response : Response,
      writeItems isoDateParse tickingClock identityTask (pageOf (some 10)) = .ok response ∧
      response.conformsTo = "https://project-open-data.cio.gov/v1.1/schema" ∧
      response.describedBy = "https://project-open-data.cio.gov/v1.1/schema/catalog.json" ∧
      response.context = "https://project-open-data.cio.gov/v1.1/schema/catalog.jsonld" ∧
      response.type = "dcat:Catalog" :=
  writeItems_fixed_fields isoDateParse tickingClock identityTask (pageOf (some 10))
    (by
      intro n _ _ item hitem
      simp only [pageOf, Ref.orElse, List.mem_cons, List.mem_singleton,
        List.not_mem_nil, or_false] at hitem
      rcases hitem with rfl | rfl <;> rfl)

/-! ## selectFalidDate: first valid wins, and `null` -/

/-- A list with a candidate of non-zero time value splits at the first such
candidate: every candidate before it fails to parse or parses to 0. -/
theorem exists_first_nonzero (parse : JsVal → Option Int) (arguments : List JsVal)
    (h : ∃ d ∈ arguments, ∃ t, parse d = some t ∧ t ≠ 0) :
    ∃ (pre : List JsVal) (c : JsVal) (post : List JsVal) (t : Int),
      arguments = pre ++ c :: post ∧
      (∀ d ∈ pre, parse d = none ∨ parse d = some 0) ∧
      parse c = some t ∧ t ≠ 0 := by
  induction arguments with
  | nil =>
    obtain ⟨d, hd, _⟩ := h
    simp at hd
  | cons a rest ih =>
    by_cases ha : ∃ t, parse a = some t ∧ t ≠ 0
    · obtain ⟨t, hat, ht⟩ := ha
      exact ⟨[], a, rest, t, rfl, by simp, hat, ht⟩
    · have ha' : parse a = none ∨ parse a = some 0 := by
        cases hpa : parse a with
        | none => exact Or.inl rfl
        | some t =>
          by_cases h0 : t = 0
          · exact Or.inr (by rw [h0])
          · exact absurd ⟨t, hpa, h0⟩ ha
      have hrest : ∃ d ∈ rest, ∃ t, parse d = some t ∧ t ≠ 0 := by
        obtain ⟨d, hd, t, hdt, ht⟩ := h
        rcases List.mem_cons.mp hd with rfl | hmem
        · exact absurd ⟨t, hdt, ht⟩ ha
        · exact ⟨d, hmem, t, hdt, ht⟩
      obtain ⟨pre, c, post, t, hsplit, hpre, hc, ht⟩ := ih hrest
      refine ⟨a :: pre, c, post, t, by rw [hsplit]; rfl, ?_, hc, ht⟩
      intro d hd
      rcases List.mem_cons.mp hd with rfl | hmem
      · exact ha'
      · exact hpre d hmem

/-- C1, refuted as stated: `1970-01-01T00:00:00Z` and `2022-01-01` are two valid
dates, the first parsing to the time value 0, and the result is the ISO text of
the second one, not of the first. -/
theorem selectFalidDate_first_valid_wins_counterexample :
    isoDateParse (.str "1970-01-01T00:00:00Z") = some 0 ∧
    isoDateParse (.str "2022-01-01") = some 1640995200000 ∧
    selectFalidDate isoDateParse [.str "1970-01-01T00:00:00Z", .str "2022-01-01"]
      = .ok (.str "2022-01-01T00:00:00.000Z") ∧
    selectFalidDate isoDateParse [.str "1970-01-01T00:00:00Z", .str "2022-01-01"]
      ≠ .ok (.str (isoString 0)) := by
  refine ⟨rfl, rfl, rfl, ?_⟩
  change (Except.ok (JsVal.str "2022-01-01T00:00:00.000Z") : Except JsError JsVal) ≠
    .ok (.str "1970-01-01T00:00:00.000Z")
  simp

/-- C1, amended. First valid wins among the candidates that parse to a non-zero
time value: every list with such a candidate splits at the first one, in
original order, and `selectFalidDate` returns the ISO text of its time value,
whatever the candidates after it are and whether or not it is the earliest or
latest date; so of two candidates the first is returned whenever it parses to a
non-zero time value. -/
theorem selectFalidDate_first_valid_wins (parse : JsVal → Option Int)
    (arguments : List JsVal)
    (hsome : ∃ d ∈ arguments, ∃ t, parse d = some t ∧ t ≠ 0) :
    (∃ (pre : List JsVal) (c : JsVal) (post : List JsVal) (t : Int),
      arguments = pre ++ c :: post ∧
      (∀ d ∈ pre, parse d = none ∨ parse d = some 0) ∧
      parse c = some t ∧ t ≠ 0 ∧
      selectFalidDate parse arguments = .ok (.str (isoString t)) ∧
      ∀ post₂ : List JsVal,
        selectFalidDate parse (pre ++ c :: post₂) = .ok (.str (isoString t))) ∧
    (∀ (a b : JsVal) (ta : Int), parse a = some ta → ta ≠ 0 →
      selectFalidDate parse [a, b] = .ok (.str (isoString ta))) := by
  constructor
  · obtain ⟨pre, c, post, t, hsplit, hpre, hc, ht⟩ :=
      exists_first_nonzero parse arguments hsome
    refine ⟨pre, c, post, t, hsplit, hpre, hc, ht, ?_, ?_⟩
    · rw [hsplit]
      exact selectFalidDate_first_nonzero parse pre post c t hpre hc ht
    · intro post₂
      exact selectFalidDate_first_nonzero parse pre post₂ c t hpre hc ht
  · intro a b ta ha hta
    exact selectFalidDate_first_nonzero parse [] [b] a ta (by simp) ha hta

/-- C1 as amended, evaluated: of `2023-01-05` and `2022-01-01`, in that order,
the first one is selected. -/
theorem selectFalidDate_first_valid_wins_witness :
    (∃ d ∈ [JsVal.str "2023-01-05", JsVal.str "2022-01-01"],
      ∃ t, isoDateParse d = some t ∧ t ≠ 0) ∧
    selectFalidDate isoDateParse [.str "2023-01-05", .str "2022-01-01"]
      = .ok (.str (isoString 1672876800000)) ∧
    selectFalidDate isoDateParse [.str "2023-01-05", .str "2022-01-01"]
      = .ok (.str "2023-01-05T00:00:00.000Z") :=
  have hsome : ∃ d ∈ [JsVal.str "2023-01-05", JsVal.str "2022-01-01"],
      ∃ t, isoDateParse d = some t ∧ t ≠ 0 :=
    ⟨.str "2023-01-05", by simp, 1672876800000, rfl, by decide⟩
  ⟨hsome,
    (selectFalidDate_first_valid_wins isoDateParse
      [.str "2023-01-05", .str "2022-01-01"] hsome).2
      (.str "2023-01-05") (.str "2022-01-01") 1672876800000 rfl (by decide),
    rfl⟩

/-- C2, refuted as stated: the candidate `1970-01-01T00:00:00Z` parses, to the
time value 0, and the result for the list holding it is `null`. -/
theorem selectFalidDate_null_iff_counterexample :
    isoDateParse (.str "1970-01-01T00:00:00Z") = some 0 ∧
    selectFalidDate isoDateParse [.str "1970-01-01T00:00:00Z"] = .ok .null :=
  ⟨rfl, rfl⟩

/-- C2, amended. `selectFalidDate` returns `null` exactly when no candidate parses
to a non-zero time value, that is when every candidate fails to parse or parses
to 0; the empty list is such a list. Whenever some candidate parses to a non-zero
time value it returns the non-empty ISO text of the non-zero time value of one of
the candidates. It raises no exception. -/
theorem selectFalidDate_null_iff (parse : JsVal → Option Int) (arguments : List JsVal) :
    (selectFalidDate parse arguments = .ok .null ↔
        ∀ d ∈ arguments, parse d = none ∨ parse d = some 0) ∧
    ((∃ d ∈ arguments, ∃ t, parse d = some t ∧ t ≠ 0) →
        ∃ c ∈ arguments, ∃ t, parse c = some t ∧ t ≠ 0 ∧
          selectFalidDate parse arguments = .ok (.str (isoString t)) ∧
          isoString t ≠ "") ∧
    selectFalidDate parse [] = .ok .null := by
  have hfound : (∃ d ∈ arguments, ∃ t, parse d = some t ∧ t ≠ 0) →
      ∃ c ∈ arguments, ∃ t, parse c = some t ∧ t ≠ 0 ∧
        selectFalidDate parse arguments = .ok (.str (isoString t)) ∧
        isoString t ≠ "" := by
    intro hsome
    obtain ⟨pre, c, post, t, hsplit, hpre, hc, ht⟩ :=
      exists_first_nonzero parse arguments hsome
    refine ⟨c, by rw [hsplit]; simp, t, hc, ht, ?_, isoString_ne_empty t⟩
    rw [hsplit]
    exact selectFalidDate_first_nonzero parse pre post c t hpre hc ht
  refine ⟨⟨?_, ?_⟩, hfound, rfl⟩
  · intro hnull d hd
    cases hpd : parse d with
    | none => exact Or.inl rfl
    | some t =>
      by_cases h0 : t = 0
      · exact Or.inr (by rw [h0])
      · exfalso
        obtain ⟨_, _, t', _, _, hsel, _⟩ := hfound ⟨d, hd, t, hpd, h0⟩
        rw [hsel] at hnull
        simp at hnull
  · intro hall
    rcases selectFalidDate_of_filter parse arguments with ⟨_, hsel⟩ | ⟨t, rest, hcons, _, _⟩
    · exact hsel
    · rw [filter_numTruthy_eq_nil parse arguments hall] at hcons
      simp at hcons

/-- C2 as amended, evaluated: the candidates `null` and `"not-a-date"` both fail
to parse and give `null`. -/
theorem selectFalidDate_null_iff_witness :
    (∀ d ∈ [JsVal.null, JsVal.str "not-a-date"],
      isoDateParse d = none ∨ isoDateParse d = some 0) ∧
    selectFalidDate isoDateParse [.null, .str "not-a-date"] = .ok .null :=
  have h : ∀ d ∈ [JsVal.null, JsVal.str "not-a-date"],
      isoDateParse d = none ∨ isoDateParse d = some 0 := by
    intro d hd
    simp only [List.mem_cons, List.mem_singleton, List.not_mem_nil, or_false] at hd
    rcases hd with rfl | rfl <;> exact Or.inl rfl
  ⟨h, (selectFalidDate_null_iff isoDateParse [.null, .str "not-a-date"]).1.mpr h⟩

end DcatWriter
